import Mathlib

/-!
# Guest boot preparation of the ARM port: `tools/kvm/arm/fdt.c`

A shallow embedding of the two halves of the file:

* `read_image` / `load_flat_binary`, the image and layout planner, which
  places the kernel, the device-tree blob and the optional initrd in the
  low-memory window of guest RAM;
* `setup_fdt` with `generate_cpu_nodes`, `generate_irq_prop`, `dump_fdt`
  and the three PSCI tables, the descriptor assembler.

Host pointers and guest addresses are integers without wrap-around: guest
RAM is one mapping that lies inside the address space, so the pointer
arithmetic of the planner stays in the range of the machine word, with one
exception: the initrd cursor is moved down by the size `fstat` reports, and
a file larger than the host address of the blob makes it wrap.
`load_flat_binary_word` is the planner with that cursor as a machine word;
it agrees with `load_flat_binary` whenever the file fits below the blob
(`load_flat_binary_word_eq`). Fields that the assembler narrows (`u32`
cells, `u64` pairs) are reduced modulo the width where the source narrows
them.

A call to `die` or `die_perror` ends the process; it is the `Exit.died`
outcome, carrying the machine state reached at that point.
-/

namespace KvmFdt

/-! ## Constants -/

/-- Modelled from the spec: `SZ_64K` of `linux/sizes.h`, the 64 KiB chunk of the bounded
image read. -/
def SZ_64K : Int := 0x10000

/-- Modelled from the spec: `SZ_2M` of `linux/sizes.h`, the 2 MiB boundary of the blob. -/
def SZ_2M : Int := 0x200000

/-- Modelled from the spec: `SZ_256M` of `linux/sizes.h`, the cap of the low-memory
window. -/
def SZ_256M : Int := 0x10000000

/-- The errno value `ENOMEM`. -/
def ENOMEM : Int := 12

/-- Source: `#define FDT_ALIGN SZ_2M`. -/
def FDT_ALIGN : Int := SZ_2M

/-- Source: `#define INITRD_ALIGN 4`. -/
def INITRD_ALIGN : Int := 4

/-- Source: `#define CPU_NAME_MAX_LEN 8`. -/
def CPU_NAME_MAX_LEN : Nat := 8

/-- The NUL character that ends a C string. -/
def NUL : Char := Char.ofNat 0

/-! ## Data model -/

/-- One call of the tree builder (libfdt's sequential-write interface), in
the order issued. Property values are kept as passed: a `u32` cell, a C
string, or raw bytes with their length. -/
inductive FdtCall where
  | create (bufsize : Nat)
  | finish_reservemap
  | begin_node (name : String)
  | property_cell (name : String) (val : Nat)
  | property_string (name : String) (val : String)
  | property (name : String) (val : List Nat)
  | end_node
  | finish
  | open_into (dest : Int) (bufsize : Nat)
  | pack (dest : Int)
deriving DecidableEq, Repr

/-- The fields of `struct kvm_cpu` that `fdt.c` reads. `mpidr` is the value
returned by `kvm_cpu__get_vcpu_mpidr`; `generate_fdt_nodes` is the optional
architecture callback, applied to the interrupt-controller phandle. -/
structure kvm_cpu where
  mpidr : Nat
  cpu_compatible : String
  generate_fdt_nodes : Option (Nat → List FdtCall)

/-- The placement fields of `kvm->arch`. -/
structure kvm_arch where
  memory_guest_start : Int
  kern_guest_start : Int
  initrd_guest_start : Int
  initrd_size : Int
  dtb_guest_start : Int
deriving DecidableEq, Repr

/-- The fields of `kvm->cfg.arch` that `fdt.c` reads. -/
structure kvm_config_arch where
  aarch32_guest : Bool
  dump_dtb_filename : Option String
deriving DecidableEq, Repr

/-- The virtual machine handle. `ram_start` is the host pointer of guest
RAM, `ram_size` its size; `kvm->nrcpus` is the length of `cpus`. -/
structure kvm where
  ram_start : Int
  ram_size : Nat
  cpus : List kvm_cpu
  arch : kvm_arch
  cfg : kvm_config_arch

/-- Constants and macros of headers that are not part of the sources. -/
structure Platform where
  FDT_MAX_SIZE : Nat
  COMMAND_LINE_SIZE : Nat
  ARM_KERN_OFFSET : kvm → Nat
  ARM_MPIDR_HWID_BITMASK : Nat
  GIC_FDT_IRQ_TYPE_SPI : Nat
  GIC_SPI_IRQ_BASE : Nat
  GIC_FDT_IRQ_FLAGS_EDGE_LO_HI : Nat
  KVM_PSCI_FN_CPU_SUSPEND : Nat
  KVM_PSCI_FN_CPU_OFF : Nat
  KVM_PSCI_FN_CPU_ON : Nat
  KVM_PSCI_FN_MIGRATE : Nat
  PSCI_0_2_FN_CPU_SUSPEND : Nat
  PSCI_0_2_FN_CPU_OFF : Nat
  PSCI_0_2_FN_CPU_ON : Nat
  PSCI_0_2_FN_MIGRATE : Nat
  PSCI_0_2_FN64_CPU_SUSPEND : Nat
  PSCI_0_2_FN64_CPU_ON : Nat
  PSCI_0_2_FN64_MIGRATE : Nat
  host_big_endian : Bool

/-- A host file descriptor as the planner sees it: the results of `lseek`
and `fstat`, the size `fstat` reports, and the results of the successive
`xread` calls (positive: bytes delivered, zero: end of file, negative: I/O
error). Once the list is used up `xread` returns 0. -/
structure HostFile where
  lseek_ret : Int
  fstat_ret : Int
  st_size : Int
  reads : List Int
deriving DecidableEq, Repr

/-- How a function ends: it returns a value, or the process is terminated
by `die` / `die_perror` with the given message. -/
inductive Exit where
  | returned (val : Int)
  | died (msg : String)
deriving DecidableEq, Repr

/-- The mutable state the planner and the assembler share: the VM handle,
the static `kern_cmdline` buffer, and the stores made into guest RAM, each
as (host address, byte count), oldest first. -/
structure Machine where
  vm : kvm
  kern_cmdline : List Char
  stores : List (Int × Int)

/-! ## Address translation and alignment -/

/-- Modelled from the spec: `host_to_guest_flat` of `kvm/kvm.h`; host memory backing the
guest is mapped contiguously at a fixed offset. -/
def host_to_guest_flat (vm : kvm) (ptr : Int) : Int :=
  vm.arch.memory_guest_start + (ptr - vm.ram_start)

/-- Modelled from the spec: `guest_flat_to_host` of `kvm/kvm.h`, the inverse of
`host_to_guest_flat`. -/
def guest_flat_to_host (vm : kvm) (addr : Int) : Int :=
  vm.ram_start + (addr - vm.arch.memory_guest_start)

/-- Modelled from the spec: the `ALIGN(x, a)` macro of `linux/kernel.h`, `(x + (a - 1)) & ~(a - 1)`,
which for a power of two `a` rounds `x` up to the next multiple of `a`. -/
def ALIGN (x a : Int) : Int := (x + (a - 1)) / a * a

/-! ## Image and layout planner -/

/-- The loop of `read_image`:
`while (((count = xread(fd, *pos, SZ_64K)) > 0) && *pos <= limit) *pos += count;`
Each `xread` that delivers bytes stores them at the cursor before the bound
is tested. Returns the final cursor and the stores made. -/
def read_image_loop : List Int → Int → Int → Int × List (Int × Int)
  | [], pos, _ => (pos, [])
  | count :: rest, pos, limit =>
    if count > 0 then
      if pos ≤ limit then
        let r := read_image_loop rest (pos + count) limit
        (r.1, (pos, count) :: r.2)
      else (pos, [(pos, count)])
    else (pos, [])

/-- Result of `read_image`: whether `die_perror("xread")` was reached, the
return value, the final cursor `*pos`, and the stores made. -/
structure ReadResult where
  died : Bool
  ret : Int
  pos : Int
  stores : List (Int × Int)
deriving DecidableEq, Repr

/-- Source: `read_image(fd, pos, limit)`. `pos_ref` is the parameter `pos` itself, the
address of the caller's cursor, which is what the source compares with 0
after the loop; `pos` here is the cursor `*pos`. -/
def read_image (pos_ref : Nat) (reads : List Int) (pos limit : Int) : ReadResult :=
  let r := read_image_loop reads pos limit
  if pos_ref < 0 then
    { died := true, ret := 0, pos := r.1, stores := r.2 }
  else
    { died := false, ret := if r.1 < limit then 0 else -ENOMEM, pos := r.1, stores := r.2 }

/-- The libc function `strncpy(dest, src, n)` on a buffer of exactly `n` characters:
the string up to its terminator, cut to `n` characters, then padded with
NUL. -/
def strncpy (src : List Char) (n : Nat) : List Char :=
  let s := (src.takeWhile (fun c => c != NUL)).take n
  s ++ List.replicate (n - s.length) NUL

/-- Result of `load_flat_binary`: how it ended, the machine state at that
point, and the guest address of the local `kernel_end` once it is set. -/
structure LoadResult where
  exit : Exit
  m : Machine
  kernel_end : Option Int

/-- Source: `load_flat_binary(kvm, fd_kernel, fd_initrd, kernel_cmdline)`.
`fd_initrd = -1` is `none`. -/
def load_flat_binary (P : Platform) (pos_ref : Nat) (m : Machine) (fd_kernel : HostFile)
    (fd_initrd : Option HostFile) (kernel_cmdline : List Char) : LoadResult :=
  let vm := m.vm
  if fd_kernel.lseek_ret < 0 then
    { exit := Exit.died "lseek", m := m, kernel_end := none }
  else
    let limit : Int := vm.ram_start + min (vm.ram_size : Int) SZ_256M - 1
    let pos : Int := vm.ram_start + (P.ARM_KERN_OFFSET vm : Int)
    let vm1 : kvm := { vm with arch := { vm.arch with kern_guest_start := host_to_guest_flat vm pos } }
    let rk := read_image pos_ref fd_kernel.reads pos limit
    let m1 : Machine := { m with vm := vm1, stores := m.stores ++ rk.stores }
    if rk.died then
      { exit := Exit.died "xread", m := m1, kernel_end := none }
    else if rk.ret = -ENOMEM then
      { exit := Exit.died "kernel image too big to contain in guest memory.", m := m1,
        kernel_end := none }
    else
      let kernel_end : Int := rk.pos
      let ke : Option Int := some (host_to_guest_flat vm kernel_end)
      let pos : Int := limit - ((P.FDT_MAX_SIZE : Int) + FDT_ALIGN)
      let guest_addr : Int := ALIGN (host_to_guest_flat vm pos) FDT_ALIGN
      let pos : Int := guest_flat_to_host vm guest_addr
      if pos < kernel_end then
        { exit := Exit.died "fdt overlaps with kernel image.", m := m1, kernel_end := ke }
      else
        let vm2 : kvm := { vm1 with arch := { vm1.arch with dtb_guest_start := guest_addr } }
        let m2 : Machine := { m1 with vm := vm2 }
        let limit : Int := pos
        let cmdline : List Char :=
          (strncpy kernel_cmdline P.COMMAND_LINE_SIZE).set (P.COMMAND_LINE_SIZE - 1) NUL
        match fd_initrd with
        | some fdi =>
          if fdi.lseek_ret < 0 then
            { exit := Exit.died "lseek", m := m2, kernel_end := ke }
          else if fdi.fstat_ret ≠ 0 then
            { exit := Exit.died "fstat", m := m2, kernel_end := ke }
          else
            let pos : Int := pos - (fdi.st_size + INITRD_ALIGN)
            let guest_addr : Int := ALIGN (host_to_guest_flat vm pos) INITRD_ALIGN
            let pos : Int := guest_flat_to_host vm guest_addr
            if pos < kernel_end then
              { exit := Exit.died "initrd overlaps with kernel image.", m := m2, kernel_end := ke }
            else
              let initrd_start : Int := guest_addr
              let ri := read_image pos_ref fdi.reads pos limit
              let m3 : Machine := { m2 with stores := m2.stores ++ ri.stores }
              if ri.died then
                { exit := Exit.died "xread", m := m3, kernel_end := ke }
              else if ri.ret = -ENOMEM then
                { exit := Exit.died "initrd too big to contain in guest memory.", m := m3,
                  kernel_end := ke }
              else
                let vm3 : kvm := { vm2 with arch := { vm2.arch with
                  initrd_guest_start := initrd_start,
                  initrd_size := host_to_guest_flat vm ri.pos - initrd_start } }
                { exit := Exit.returned 1,
                  m := { m3 with vm := vm3, kern_cmdline := cmdline },
                  kernel_end := ke }
        | none =>
          let vm3 : kvm := { vm2 with arch := { vm2.arch with initrd_size := 0 } }
          { exit := Exit.returned 1,
            m := { m2 with vm := vm3, kern_cmdline := cmdline },
            kernel_end := ke }

/-! ## Byte order -/

/-- The `n` low bytes of `x`, least significant first. -/
def bytes_le (n x : Nat) : List Nat := (List.range n).map (fun i => x / 256 ^ i % 256)

/-- The `n` low bytes of `x`, most significant first (device-tree order). -/
def bytes_be (n x : Nat) : List Nat := (bytes_le n x).reverse

/-- The number whose bytes, least significant first, are the given list. -/
def of_bytes_le : List Nat → Nat
  | [] => 0
  | b :: bs => b + 256 * of_bytes_le bs

/-- The bytes an `n`-byte host integer occupies in memory, lowest address
first, on a host of the given endianness. -/
def host_bytes (big_endian : Bool) (n x : Nat) : List Nat :=
  if big_endian then bytes_be n x else bytes_le n x

/-- Modelled from the spec: `cpu_to_fdt32` of libfdt; cells are stored big-endian, so the
conversion is the identity on a big-endian host and a four-byte swap on a
little-endian one. -/
def cpu_to_fdt32 (big_endian : Bool) (x : Nat) : Nat :=
  if big_endian then x % 2 ^ 32 else of_bytes_le (bytes_be 4 x)

/-- Modelled from the spec: `cpu_to_fdt64` of libfdt, the eight-byte counterpart of
`cpu_to_fdt32`. -/
def cpu_to_fdt64 (big_endian : Bool) (x : Nat) : Nat :=
  if big_endian then x % 2 ^ 64 else of_bytes_le (bytes_be 8 x)

/-- The value of a `u64` field holding the integer `x`. -/
def as_u64 (x : Int) : Nat := (x % 2 ^ 64).toNat

/-- The value of a `u32` holding the integer `x`. -/
def as_u32 (x : Int) : Nat := (x % 2 ^ 32).toNat

/-- The `char` array of a string literal: its characters and the
terminating NUL, so that `sizeof` is the length of the list. -/
def char_array (s : String) : List Nat := s.toList.map Char.toNat ++ [0]

/-- The C string held in a character buffer: the characters before the
first NUL. -/
def c_string (buf : List Char) : String := String.mk (buf.takeWhile (fun c => c != NUL))

/-! ## Descriptor assembler -/

/-- A registered device: `dev_hdr->data`, its node-emission callback, applied
to the interrupt-property helper it is handed. -/
structure device_header where
  data : (Nat → List FdtCall) → List FdtCall

/-- What `setup_fdt` obtains from its collaborators: the phandle returned by
`fdt__alloc_phandle`, the answer of
`kvm__supports_extension(kvm, KVM_CAP_ARM_PSCI_0_2)`, the devices of the
two buses in registration order, the PCI host-bridge generator, and the
results of `open` and `write` in `dump_fdt`. -/
structure Env where
  gic_phandle : Nat
  psci_0_2 : Bool
  mmio_devs : List device_header
  ioport_devs : List device_header
  pci__generate_fdt_nodes : Nat → List FdtCall
  open_ret : Int
  write_ret : Int

/-- An operation on the host file system made by `dump_fdt`. `host_write`
records the source pointer and the byte count passed to `write`. -/
inductive HostOp where
  | host_open (path : String)
  | host_write (src : Int) (count : Nat)
  | host_close
deriving DecidableEq, Repr

/-- Source: `dump_fdt(dtb_file, fdt)`. -/
def dump_fdt (P : Platform) (E : Env) (dtb_file : String) (fdt : Int) : Exit × List HostOp :=
  let fd := E.open_ret
  if fd < 0 then
    (Exit.died "Failed to write dtb to %s", [HostOp.host_open dtb_file])
  else
    let count := E.write_ret
    if count < 0 then
      (Exit.died "Failed to dump dtb",
        [HostOp.host_open dtb_file, HostOp.host_write fdt P.FDT_MAX_SIZE])
    else
      (Exit.returned 0,
        [HostOp.host_open dtb_file, HostOp.host_write fdt P.FDT_MAX_SIZE, HostOp.host_close])

/-- Source: `snprintf(cpu_name, CPU_NAME_MAX_LEN, "cpu@%lx", mpidr)`: the formatted text
cut to the buffer size less the terminator. -/
def cpu_name (mpidr : Nat) : String :=
  String.mk (("cpu@".toList ++ Nat.toDigits 16 mpidr).take (CPU_NAME_MAX_LEN - 1))

/-- The body of the loop of `generate_cpu_nodes` for one vCPU. -/
def generate_cpu_node (P : Platform) (vm : kvm) (vcpu : kvm_cpu) : List FdtCall :=
  let mpidr := vcpu.mpidr &&& P.ARM_MPIDR_HWID_BITMASK
  [FdtCall.begin_node (cpu_name mpidr),
   FdtCall.property_string "device_type" "cpu",
   FdtCall.property_string "compatible" vcpu.cpu_compatible]
  ++ (if vm.cpus.length > 1 then [FdtCall.property_string "enable-method" "psci"] else [])
  ++ [FdtCall.property_cell "reg" (mpidr % 2 ^ 32),
      FdtCall.end_node]

/-- Source: `generate_cpu_nodes(fdt, kvm)`. -/
def generate_cpu_nodes (P : Platform) (vm : kvm) : List FdtCall :=
  [FdtCall.begin_node "cpus",
   FdtCall.property_cell "#address-cells" 0x1,
   FdtCall.property_cell "#size-cells" 0x0]
  ++ vm.cpus.flatMap (generate_cpu_node P vm)
  ++ [FdtCall.end_node]

/-- Source: `generate_irq_prop(fdt, irq)`; `irq` is converted to `u8` on entry, and the
difference is computed in `int` before it is narrowed to a cell. -/
def generate_irq_prop (P : Platform) (irq : Nat) : List FdtCall :=
  let irq : Nat := irq % 256
  let be := P.host_big_endian
  let irq_prop : List Nat :=
    host_bytes be 4 (cpu_to_fdt32 be P.GIC_FDT_IRQ_TYPE_SPI)
    ++ host_bytes be 4 (cpu_to_fdt32 be (as_u32 ((irq : Int) - (P.GIC_SPI_IRQ_BASE : Int))))
    ++ host_bytes be 4 (cpu_to_fdt32 be P.GIC_FDT_IRQ_FLAGS_EDGE_LO_HI)
  [FdtCall.property "interrupts" irq_prop]

/-- Source: `struct psci_fns`. -/
structure psci_fns where
  cpu_suspend : Nat
  cpu_off : Nat
  cpu_on : Nat
  migrate : Nat
deriving DecidableEq, Repr

/-- Source: `psci_0_1_fns`. -/
def psci_0_1_fns (P : Platform) : psci_fns :=
  { cpu_suspend := P.KVM_PSCI_FN_CPU_SUSPEND,
    cpu_off := P.KVM_PSCI_FN_CPU_OFF,
    cpu_on := P.KVM_PSCI_FN_CPU_ON,
    migrate := P.KVM_PSCI_FN_MIGRATE }

/-- Source: `psci_0_2_aarch32_fns`. -/
def psci_0_2_aarch32_fns (P : Platform) : psci_fns :=
  { cpu_suspend := P.PSCI_0_2_FN_CPU_SUSPEND,
    cpu_off := P.PSCI_0_2_FN_CPU_OFF,
    cpu_on := P.PSCI_0_2_FN_CPU_ON,
    migrate := P.PSCI_0_2_FN_MIGRATE }

/-- Source: `psci_0_2_aarch64_fns`. -/
def psci_0_2_aarch64_fns (P : Platform) : psci_fns :=
  { cpu_suspend := P.PSCI_0_2_FN64_CPU_SUSPEND,
    cpu_off := P.PSCI_0_2_FN_CPU_OFF,
    cpu_on := P.PSCI_0_2_FN64_CPU_ON,
    migrate := P.PSCI_0_2_FN64_MIGRATE }

/-- The part of `setup_fdt` from `fdt_create` to the end of `/memory`. -/
def setup_fdt_head (P : Platform) (E : Env) (m : Machine) : List FdtCall :=
  let vm := m.vm
  let be := P.host_big_endian
  let mem_reg_prop : List Nat :=
    host_bytes be 8 (cpu_to_fdt64 be (as_u64 vm.arch.memory_guest_start))
    ++ host_bytes be 8 (cpu_to_fdt64 be vm.ram_size)
  [FdtCall.create P.FDT_MAX_SIZE,
   FdtCall.finish_reservemap,
   FdtCall.begin_node "",
   FdtCall.property_cell "interrupt-parent" E.gic_phandle,
   FdtCall.property_string "compatible" "linux,dummy-virt",
   FdtCall.property_cell "#address-cells" 0x2,
   FdtCall.property_cell "#size-cells" 0x2,
   FdtCall.begin_node "chosen",
   FdtCall.property_cell "linux,pci-probe-only" 1,
   FdtCall.property_string "bootargs" (c_string m.kern_cmdline)]
  ++ (if vm.arch.initrd_size ≠ 0 then
        let ird_st_prop : Nat := cpu_to_fdt64 be (as_u64 vm.arch.initrd_guest_start) % 2 ^ 32
        let ird_end_prop : Nat :=
          cpu_to_fdt64 be (as_u64 (vm.arch.initrd_guest_start + vm.arch.initrd_size)) % 2 ^ 32
        [FdtCall.property "linux,initrd-start" (host_bytes be 4 ird_st_prop),
         FdtCall.property "linux,initrd-end" (host_bytes be 4 ird_end_prop)]
      else [])
  ++ [FdtCall.end_node,
      FdtCall.begin_node "memory",
      FdtCall.property_string "device_type" "memory",
      FdtCall.property "reg" mem_reg_prop,
      FdtCall.end_node]

/-- The part of `setup_fdt` that emits `/psci`. -/
def setup_fdt_psci (P : Platform) (E : Env) (vm : kvm) : List FdtCall :=
  let sel : List FdtCall × psci_fns :=
    if E.psci_0_2 then
      ([FdtCall.property "compatible" (char_array "arm,psci-0.2\x00arm,psci")],
        if vm.cfg.aarch32_guest then psci_0_2_aarch32_fns P else psci_0_2_aarch64_fns P)
    else
      ([FdtCall.property_string "compatible" "arm,psci"], psci_0_1_fns P)
  let fns := sel.2
  [FdtCall.begin_node "psci"]
  ++ sel.1
  ++ [FdtCall.property_string "method" "hvc",
      FdtCall.property_cell "cpu_suspend" fns.cpu_suspend,
      FdtCall.property_cell "cpu_off" fns.cpu_off,
      FdtCall.property_cell "cpu_on" fns.cpu_on,
      FdtCall.property_cell "migrate" fns.migrate,
      FdtCall.end_node]

/-- Result of `setup_fdt`: how it ended, the builder calls issued, and the
host file operations of the diagnostic dump. -/
structure SetupResult where
  exit : Exit
  calls : List FdtCall
  host_ops : List HostOp
deriving DecidableEq, Repr

/-- Source: `setup_fdt(kvm)`, on the run where every builder call succeeds (`_FDT` ends
the process otherwise). `kvm->cpus[0]` is read unconditionally: without a
vCPU the function has no result. -/
def setup_fdt (P : Platform) (E : Env) (m : Machine) : Option SetupResult :=
  let vm := m.vm
  match vm.cpus with
  | [] => none
  | cpu0 :: _ =>
    let gic_phandle := E.gic_phandle
    let fdt_dest : Int := guest_flat_to_host vm vm.arch.dtb_guest_start
    let generate_cpu_peripheral_fdt_nodes := cpu0.generate_fdt_nodes
    let calls : List FdtCall :=
      setup_fdt_head P E m
      ++ generate_cpu_nodes P vm
      ++ (match generate_cpu_peripheral_fdt_nodes with
          | some f => f gic_phandle
          | none => [])
      ++ E.mmio_devs.flatMap (fun dev_hdr => dev_hdr.data (generate_irq_prop P))
      ++ E.ioport_devs.flatMap (fun dev_hdr => dev_hdr.data (generate_irq_prop P))
      ++ E.pci__generate_fdt_nodes gic_phandle
      ++ setup_fdt_psci P E vm
      ++ [FdtCall.end_node,
          FdtCall.finish,
          FdtCall.open_into fdt_dest P.FDT_MAX_SIZE,
          FdtCall.pack fdt_dest]
    match vm.cfg.dump_dtb_filename with
    | some dtb_file =>
      let d := dump_fdt P E dtb_file fdt_dest
      some { exit := d.1, calls := calls, host_ops := d.2 }
    | none => some { exit := Exit.returned 0, calls := calls, host_ops := [] }

/-! ## Regions of guest memory -/

/-- A half-open range `[start, stop)` of guest addresses. -/
structure Region where
  start : Int
  stop : Int
deriving DecidableEq, Repr

/-- The region is well formed and lies inside `[lo, hi)`. -/
def Region.inside (r : Region) (lo hi : Int) : Prop :=
  lo ≤ r.start ∧ r.start ≤ r.stop ∧ r.stop ≤ hi

/-- Two regions share no address: one ends where or before the other
starts. -/
def Region.disjoint (a b : Region) : Prop :=
  a.stop ≤ b.start ∨ b.stop ≤ a.start

/-! ## Sample configuration

A 64-bit guest with 128 MiB of RAM mapped at host address `0x7f0000000000`
and guest address `0x80000000`, with the constants of the arm64 headers. -/

/-- The constants of the arm64 build. -/
def demo_platform : Platform where
  FDT_MAX_SIZE := 0x10000
  COMMAND_LINE_SIZE := 2048
  ARM_KERN_OFFSET := fun vm => if vm.cfg.aarch32_guest then 0x8000 else 0x80000
  ARM_MPIDR_HWID_BITMASK := 0xFF00FFFFFF
  GIC_FDT_IRQ_TYPE_SPI := 0
  GIC_SPI_IRQ_BASE := 32
  GIC_FDT_IRQ_FLAGS_EDGE_LO_HI := 1
  KVM_PSCI_FN_CPU_SUSPEND := 0x95c1ba5e
  KVM_PSCI_FN_CPU_OFF := 0x95c1ba5f
  KVM_PSCI_FN_CPU_ON := 0x95c1ba60
  KVM_PSCI_FN_MIGRATE := 0x95c1ba61
  PSCI_0_2_FN_CPU_SUSPEND := 0x84000001
  PSCI_0_2_FN_CPU_OFF := 0x84000002
  PSCI_0_2_FN_CPU_ON := 0x84000003
  PSCI_0_2_FN_MIGRATE := 0x84000005
  PSCI_0_2_FN64_CPU_SUSPEND := 0xC4000001
  PSCI_0_2_FN64_CPU_ON := 0xC4000003
  PSCI_0_2_FN64_MIGRATE := 0xC4000005
  host_big_endian := false

/-- A VM handle before layout: one vCPU, no placement recorded yet. -/
def demo_vm (ram_size : Nat) : kvm where
  ram_start := 0x7f0000000000
  ram_size := ram_size
  cpus := [{ mpidr := 0x80000000, cpu_compatible := "arm,cortex-a57",
             generate_fdt_nodes := some (fun phandle =>
               [FdtCall.begin_node "intc", FdtCall.property_cell "phandle" phandle,
                FdtCall.end_node]) }]
  arch := { memory_guest_start := 0x80000000, kern_guest_start := 0,
            initrd_guest_start := 0, initrd_size := 0, dtb_guest_start := 0 }
  cfg := { aarch32_guest := false, dump_dtb_filename := none }

/-- The machine before layout: empty command-line buffer, no store made. -/
def demo_machine (ram_size : Nat) : Machine where
  vm := demo_vm ram_size
  kern_cmdline := []
  stores := []

/-- A file of the given chunks, every call on it succeeding. -/
def demo_file (chunks : List Int) : HostFile where
  lseek_ret := 0
  fstat_ret := 0
  st_size := chunks.sum
  reads := chunks

/-- The sample machine with 128 MiB of RAM after the layout of a
100000-byte kernel and a 70001-byte initrd. -/
def demo_loaded : Machine :=
  (load_flat_binary demo_platform 7 (demo_machine 0x8000000) (demo_file [65536, 34464])
    (some (demo_file [65536, 4465])) "console=ttyAMA0".toList).m

/-- The laid-out sample machine with a diagnostic dump path configured. -/
def demo_dump : Machine :=
  { demo_loaded with vm := { demo_loaded.vm with
      cfg := { demo_loaded.vm.cfg with dump_dtb_filename := some "guest.dtb" } } }

/-! ## The initrd cursor as a machine word -/

/-- The value a pointer of `w` bits takes when assigned the integer `x`:
pointer arithmetic wraps around modulo `2 ^ w`. -/
def ptr_word (w : Nat) (x : Int) : Int := x % 2 ^ w

/-- Source: `load_flat_binary(kvm, fd_kernel, fd_initrd, kernel_cmdline)` on a host whose
pointers have `w` bits, with the cursor `pos` of the initrd stage as the
machine word it is: `pos -= (sb.st_size + INITRD_ALIGN)` and
`pos = guest_flat_to_host(kvm, guest_addr)` wrap around modulo `2 ^ w`, so
that a file larger than the host address of the blob sends the cursor to
the top of the address space. The kernel and blob stages are those of
`load_flat_binary`. -/
def load_flat_binary_word (w : Nat) (P : Platform) (pos_ref : Nat) (m : Machine)
    (fd_kernel : HostFile) (fd_initrd : Option HostFile) (kernel_cmdline : List Char) :
    LoadResult :=
  let vm := m.vm
  if fd_kernel.lseek_ret < 0 then
    { exit := Exit.died "lseek", m := m, kernel_end := none }
  else
    let limit : Int := vm.ram_start + min (vm.ram_size : Int) SZ_256M - 1
    let pos : Int := vm.ram_start + (P.ARM_KERN_OFFSET vm : Int)
    let vm1 : kvm := { vm with arch := { vm.arch with kern_guest_start := host_to_guest_flat vm pos } }
    let rk := read_image pos_ref fd_kernel.reads pos limit
    let m1 : Machine := { m with vm := vm1, stores := m.stores ++ rk.stores }
    if rk.died then
      { exit := Exit.died "xread", m := m1, kernel_end := none }
    else if rk.ret = -ENOMEM then
      { exit := Exit.died "kernel image too big to contain in guest memory.", m := m1,
        kernel_end := none }
    else
      let kernel_end : Int := rk.pos
      let ke : Option Int := some (host_to_guest_flat vm kernel_end)
      let pos : Int := limit - ((P.FDT_MAX_SIZE : Int) + FDT_ALIGN)
      let guest_addr : Int := ALIGN (host_to_guest_flat vm pos) FDT_ALIGN
      let pos : Int := guest_flat_to_host vm guest_addr
      if pos < kernel_end then
        { exit := Exit.died "fdt overlaps with kernel image.", m := m1, kernel_end := ke }
      else
        let vm2 : kvm := { vm1 with arch := { vm1.arch with dtb_guest_start := guest_addr } }
        let m2 : Machine := { m1 with vm := vm2 }
        let limit : Int := pos
        let cmdline : List Char :=
          (strncpy kernel_cmdline P.COMMAND_LINE_SIZE).set (P.COMMAND_LINE_SIZE - 1) NUL
        match fd_initrd with
        | some fdi =>
          if fdi.lseek_ret < 0 then
            { exit := Exit.died "lseek", m := m2, kernel_end := ke }
          else if fdi.fstat_ret ≠ 0 then
            { exit := Exit.died "fstat", m := m2, kernel_end := ke }
          else
            let pos : Int := ptr_word w (pos - (fdi.st_size + INITRD_ALIGN))
            let guest_addr : Int := ALIGN (host_to_guest_flat vm pos) INITRD_ALIGN
            let pos : Int := ptr_word w (guest_flat_to_host vm guest_addr)
            if pos < kernel_end then
              { exit := Exit.died "initrd overlaps with kernel image.", m := m2, kernel_end := ke }
            else
              let initrd_start : Int := guest_addr
              let ri := read_image pos_ref fdi.reads pos limit
              let m3 : Machine := { m2 with stores := m2.stores ++ ri.stores }
              if ri.died then
                { exit := Exit.died "xread", m := m3, kernel_end := ke }
              else if ri.ret = -ENOMEM then
                { exit := Exit.died "initrd too big to contain in guest memory.", m := m3,
                  kernel_end := ke }
              else
                let vm3 : kvm := { vm2 with arch := { vm2.arch with
                  initrd_guest_start := initrd_start,
                  initrd_size := host_to_guest_flat vm ri.pos - initrd_start } }
                { exit := Exit.returned 1,
                  m := { m3 with vm := vm3, kern_cmdline := cmdline },
                  kernel_end := ke }
        | none =>
          let vm3 : kvm := { vm2 with arch := { vm2.arch with initrd_size := 0 } }
          { exit := Exit.returned 1,
            m := { m2 with vm := vm3, kern_cmdline := cmdline },
            kernel_end := ke }

/-- A sparse initrd of 128 TiB: `fstat` reports `2 ^ 47` bytes and the reads
deliver them in `2 ^ 31` chunks of 64 KiB. -/
def demo_sparse_initrd : HostFile where
  lseek_ret := 0
  fstat_ret := 0
  st_size := 2 ^ 47
  reads := List.replicate (2 ^ 31) 65536

/-! ## Nesting of builder calls -/

/-- The call opens a node. -/
def is_begin : FdtCall → Bool
  | FdtCall.begin_node _ => true
  | _ => false

/-- The call closes a node. -/
def is_end : FdtCall → Bool
  | FdtCall.end_node => true
  | _ => false

/-- The number of open nodes after the calls, starting with `d` open nodes;
`none` when an `end_node` is issued with no node open. Since `end_node`
names no node, a successful run is one in which every `end_node` closes the
node opened last. -/
def fdt_depth : Nat → List FdtCall → Option Nat
  | d, [] => some d
  | d, c :: cs =>
    if is_begin c then fdt_depth (d + 1) cs
    else if is_end c then
      match d with
      | 0 => none
      | e + 1 => fdt_depth e cs
    else fdt_depth d cs

/-- The number of open nodes after each `begin_node` and `end_node` call, in
order, starting with `d` open nodes. -/
def nest_depths : Nat → List FdtCall → List Nat
  | _, [] => []
  | d, c :: cs =>
    if is_begin c then (d + 1) :: nest_depths (d + 1) cs
    else if is_end c then (d - 1) :: nest_depths (d - 1) cs
    else nest_depths d cs

/-- The `begin_node` calls issued while no node is open: the root nodes. -/
def root_opens : Nat → List FdtCall → List FdtCall
  | _, [] => []
  | d, c :: cs =>
    if is_begin c then (if d = 0 then [c] else []) ++ root_opens (d + 1) cs
    else if is_end c then root_opens (d - 1) cs
    else root_opens d cs

/-- A sequence of calls that closes exactly the nodes it opens: run with no
node open it never closes an unopened node and leaves none open. -/
def Balanced (cs : List FdtCall) : Prop := fdt_depth 0 cs = some 0

/-- The calls `setup_fdt` makes between opening and closing the root node,
given the peripheral callback of the first vCPU. -/
def setup_fdt_body (P : Platform) (E : Env) (m : Machine)
    (cb : Option (Nat → List FdtCall)) : List FdtCall :=
  (setup_fdt_head P E m).drop 3
  ++ generate_cpu_nodes P m.vm
  ++ (match cb with
      | some f => f E.gic_phandle
      | none => [])
  ++ E.mmio_devs.flatMap (fun dev_hdr => dev_hdr.data (generate_irq_prop P))
  ++ E.ioport_devs.flatMap (fun dev_hdr => dev_hdr.data (generate_irq_prop P))
  ++ E.pci__generate_fdt_nodes E.gic_phandle
  ++ setup_fdt_psci P E m.vm

/-- A collaborator set with one memory-mapped device (a node with an
interrupt property), one port-mapped device, and a PCI bridge node. -/
def demo_env (psci_0_2 : Bool) : Env where
  gic_phandle := 1
  psci_0_2 := psci_0_2
  mmio_devs := [{ data := fun irq_fn =>
    [FdtCall.begin_node "virtio@10000"] ++ irq_fn 33 ++ [FdtCall.end_node] }]
  ioport_devs := [{ data := fun _ => [FdtCall.begin_node "U6_16550A@3f8", FdtCall.end_node] }]
  pci__generate_fdt_nodes := fun phandle =>
    [FdtCall.begin_node "pci", FdtCall.property_cell "interrupt-parent" phandle,
     FdtCall.end_node]
  open_ret := 3
  write_ret := 0x10000

/-! ## Quantities computed by the layout planner -/

/-- The window limit computed first by `load_flat_binary` (host pointer). -/
def lowmem_limit (vm : kvm) : Int := vm.ram_start + min (vm.ram_size : Int) SZ_256M - 1

/-- The host pointer at which the kernel is loaded. -/
def kernel_pos (P : Platform) (vm : kvm) : Int := vm.ram_start + (P.ARM_KERN_OFFSET vm : Int)

/-- The guest address chosen for the blob. -/
def dtb_addr (P : Platform) (vm : kvm) : Int :=
  ALIGN (host_to_guest_flat vm (lowmem_limit vm - ((P.FDT_MAX_SIZE : Int) + FDT_ALIGN))) FDT_ALIGN

/-- The guest address chosen for an initrd whose `st_size` is `size`. -/
def initrd_addr (P : Platform) (vm : kvm) (size : Int) : Int :=
  ALIGN (host_to_guest_flat vm
    (guest_flat_to_host vm (dtb_addr P vm) - (size + INITRD_ALIGN))) INITRD_ALIGN

/-- The kernel read made by `load_flat_binary`. -/
def kernel_read (P : Platform) (pos_ref : Nat) (vm : kvm) (fd_kernel : HostFile) : ReadResult :=
  read_image pos_ref fd_kernel.reads (kernel_pos P vm) (lowmem_limit vm)

/-- The initrd read made by `load_flat_binary`. -/
def initrd_read (P : Platform) (pos_ref : Nat) (vm : kvm) (fdi : HostFile) : ReadResult :=
  read_image pos_ref fdi.reads (guest_flat_to_host vm (initrd_addr P vm fdi.st_size))
    (guest_flat_to_host vm (dtb_addr P vm))

/-! ## Properties of the bounded image read -/

/-- The cursor never moves backwards. -/
theorem read_image_loop_mono (reads : List Int) (pos limit : Int) :
    pos ≤ (read_image_loop reads pos limit).1 := by
  induction reads generalizing pos with
  | nil => simp [read_image_loop]
  | cons c rest ih =>
    unfold read_image_loop
    split_ifs with hc hp
    · have := ih (pos + c)
      simp only
      omega
    · simp
    · simp

/-- When every read delivers bytes and the loop ends below the bound, every
chunk was stored and the cursor advanced by the whole file. -/
theorem read_image_loop_below (chunks : List Int) (pos limit : Int)
    (hpos : ∀ c ∈ chunks, 0 < c)
    (hlt : (read_image_loop chunks pos limit).1 < limit) :
    (read_image_loop chunks pos limit).1 = pos + chunks.sum ∧
      (read_image_loop chunks pos limit).2.map Prod.snd = chunks := by
  induction chunks generalizing pos with
  | nil => simp [read_image_loop]
  | cons c rest ih =>
    have hc : 0 < c := hpos c (List.mem_cons_self _ _)
    have hrest : ∀ d ∈ rest, 0 < d := fun d hd => hpos d (List.mem_cons_of_mem _ hd)
    unfold read_image_loop at hlt ⊢
    rw [if_pos hc] at hlt ⊢
    by_cases hp : pos ≤ limit
    · rw [if_pos hp] at hlt ⊢
      simp only at hlt ⊢
      obtain ⟨h1, h2⟩ := ih (pos + c) hrest hlt
      refine ⟨?_, ?_⟩
      · rw [h1, List.sum_cons]; omega
      · rw [List.map_cons, h2]
    · rw [if_neg hp] at hlt
      simp only at hlt
      omega

/-- When every read delivers bytes and the file fits strictly below the
bound, the loop consumes the whole file. -/
theorem read_image_loop_fits (chunks : List Int) (pos limit : Int)
    (hpos : ∀ c ∈ chunks, 0 < c) (hfit : pos + chunks.sum < limit) :
    (read_image_loop chunks pos limit).1 = pos + chunks.sum := by
  induction chunks generalizing pos with
  | nil => simp [read_image_loop]
  | cons c rest ih =>
    have hc : 0 < c := hpos c (List.mem_cons_self _ _)
    have hrest : ∀ d ∈ rest, 0 < d := fun d hd => hpos d (List.mem_cons_of_mem _ hd)
    have hs : 0 ≤ rest.sum := List.sum_nonneg (fun d hd => le_of_lt (hrest d hd))
    rw [List.sum_cons] at hfit
    unfold read_image_loop
    rw [if_pos hc, if_pos (by omega)]
    simp only
    rw [ih (pos + c) hrest (by omega), List.sum_cons]
    omega

/-- The branch `die_perror("xread")` is never taken. -/
theorem read_image_died (pos_ref : Nat) (reads : List Int) (pos limit : Int) :
    (read_image pos_ref reads pos limit).died = false := by
  simp [read_image]

/-- What `read_image` returns, in terms of its loop. -/
theorem read_image_ret (pos_ref : Nat) (reads : List Int) (pos limit : Int) :
    (read_image pos_ref reads pos limit).ret
      = if (read_image_loop reads pos limit).1 < limit then 0 else -ENOMEM := by
  simp [read_image]

/-- The final cursor of `read_image` is that of its loop. -/
theorem read_image_pos (pos_ref : Nat) (reads : List Int) (pos limit : Int) :
    (read_image pos_ref reads pos limit).pos = (read_image_loop reads pos limit).1 := by
  simp [read_image]

/-- The stores of `read_image` are those of its loop. -/
theorem read_image_stores (pos_ref : Nat) (reads : List Int) (pos limit : Int) :
    (read_image pos_ref reads pos limit).stores = (read_image_loop reads pos limit).2 := by
  simp [read_image]

/-- A return value other than `-ENOMEM` means the cursor ended strictly
below the bound, at or after its start. -/
theorem read_image_ok_bounds (pos_ref : Nat) (reads : List Int) (pos limit : Int)
    (h : (read_image pos_ref reads pos limit).ret ≠ -ENOMEM) :
    pos ≤ (read_image pos_ref reads pos limit).pos ∧
      (read_image pos_ref reads pos limit).pos < limit := by
  rw [read_image_ret] at h
  rw [read_image_pos]
  refine ⟨read_image_loop_mono _ _ _, ?_⟩
  by_contra hn
  rw [if_neg hn] at h
  exact h rfl

/-- C5: for a file delivered without error in chunks of 1 to 64 KiB, `read_image`
returns 0 exactly when start cursor plus file size is strictly below the
bound, and then the cursor ends at start plus size with every chunk stored;
in every other case it returns `-ENOMEM`. -/
theorem read_image_zero_iff_fits (pos_ref : Nat) (chunks : List Int) (p limit : Int)
    (hchunks : ∀ c ∈ chunks, 1 ≤ c ∧ c ≤ SZ_64K) :
    (read_image pos_ref chunks p limit).died = false ∧
    ((read_image pos_ref chunks p limit).ret = 0 ↔ p + chunks.sum < limit) ∧
    (p + chunks.sum < limit →
      (read_image pos_ref chunks p limit).pos = p + chunks.sum ∧
      (read_image pos_ref chunks p limit).stores.map Prod.snd = chunks) ∧
    (¬ p + chunks.sum < limit → (read_image pos_ref chunks p limit).ret = -ENOMEM) := by
  have hpos : ∀ c ∈ chunks, 0 < c := fun c hc => by have := (hchunks c hc).1; omega
  have hfit : p + chunks.sum < limit → (read_image_loop chunks p limit).1 < limit := by
    intro h
    rw [read_image_loop_fits chunks p limit hpos h]
    exact h
  have hback : (read_image_loop chunks p limit).1 < limit → p + chunks.sum < limit := by
    intro h
    have := (read_image_loop_below chunks p limit hpos h).1
    omega
  refine ⟨read_image_died _ _ _ _, ?_, ?_, ?_⟩
  · rw [read_image_ret]
    constructor
    · intro h
      by_contra hn
      rw [if_neg (fun hl => hn (hback hl))] at h
      simp [ENOMEM] at h
    · intro h
      rw [if_pos (hfit h)]
  · intro h
    rw [read_image_pos, read_image_stores]
    exact read_image_loop_below chunks p limit hpos (hfit h)
  · intro h
    rw [read_image_ret, if_neg (fun hl => h (hback hl))]

/-- C5 at a file of 70000 bytes read as 65536 + 4464 from cursor 4096 with
bound 80000. -/
theorem read_image_zero_iff_fits_witness :
    (∀ c ∈ [(65536 : Int), 4464], 1 ≤ c ∧ c ≤ SZ_64K) ∧
    (read_image 7 [65536, 4464] 4096 80000).ret = 0 ∧
    (read_image 7 [65536, 4464] 4096 80000).pos = 4096 + 70000 :=
  have h : ∀ c ∈ [(65536 : Int), 4464], 1 ≤ c ∧ c ≤ SZ_64K := by decide
  ⟨h, (read_image_zero_iff_fits 7 [65536, 4464] 4096 80000 h).2.1.mpr (by decide),
    ((read_image_zero_iff_fits 7 [65536, 4464] 4096 80000 h).2.2.1 (by decide)).1⟩

/-! ## Properties of the layout planner -/

/-- On a run that returns, both fatal tests of the kernel and blob stage
were passed, and the kernel start, kernel end and blob start are the values
computed there. -/
theorem load_returned (P : Platform) (pos_ref : Nat) (m : Machine) (fk : HostFile)
    (fi : Option HostFile) (cmd : List Char)
    (h : (load_flat_binary P pos_ref m fk fi cmd).exit = Exit.returned 1) :
    (kernel_read P pos_ref m.vm fk).ret ≠ -ENOMEM ∧
    ¬ guest_flat_to_host m.vm (dtb_addr P m.vm) < (kernel_read P pos_ref m.vm fk).pos ∧
    (load_flat_binary P pos_ref m fk fi cmd).kernel_end
      = some (host_to_guest_flat m.vm (kernel_read P pos_ref m.vm fk).pos) ∧
    (load_flat_binary P pos_ref m fk fi cmd).m.vm.arch.kern_guest_start
      = host_to_guest_flat m.vm (kernel_pos P m.vm) ∧
    (load_flat_binary P pos_ref m fk fi cmd).m.vm.arch.dtb_guest_start = dtb_addr P m.vm := by
  unfold kernel_read dtb_addr kernel_pos lowmem_limit
  generalize hr : load_flat_binary P pos_ref m fk fi cmd = r at h ⊢
  unfold load_flat_binary at hr
  simp only [read_image_died] at hr
  cases fi with
  | none =>
    simp only at hr
    split_ifs at hr
    all_goals subst hr
    all_goals try (simp at h; done)
    exact ⟨by assumption, by assumption, rfl, rfl, rfl⟩
  | some fdi =>
    simp only [Bool.false_eq_true, if_false] at hr
    repeat' split at hr
    all_goals subst hr
    all_goals try (simp at h; done)
    exact ⟨by assumption, by assumption, rfl, rfl, rfl⟩

/-- On a run that returns with an initrd source, both fatal tests of the
initrd stage were passed, and the recorded start and size are the values
computed there. -/
theorem load_returned_initrd (P : Platform) (pos_ref : Nat) (m : Machine) (fk fdi : HostFile)
    (cmd : List Char)
    (h : (load_flat_binary P pos_ref m fk (some fdi) cmd).exit = Exit.returned 1) :
    ¬ guest_flat_to_host m.vm (initrd_addr P m.vm fdi.st_size)
        < (kernel_read P pos_ref m.vm fk).pos ∧
    (initrd_read P pos_ref m.vm fdi).ret ≠ -ENOMEM ∧
    (load_flat_binary P pos_ref m fk (some fdi) cmd).m.vm.arch.initrd_guest_start
      = initrd_addr P m.vm fdi.st_size ∧
    (load_flat_binary P pos_ref m fk (some fdi) cmd).m.vm.arch.initrd_size
      = host_to_guest_flat m.vm (initrd_read P pos_ref m.vm fdi).pos
          - initrd_addr P m.vm fdi.st_size := by
  unfold initrd_read kernel_read initrd_addr dtb_addr kernel_pos lowmem_limit
  generalize hr : load_flat_binary P pos_ref m fk (some fdi) cmd = r at h ⊢
  unfold load_flat_binary at hr
  simp only [read_image_died, Bool.false_eq_true, if_false] at hr
  repeat' split at hr
  all_goals subst hr
  all_goals try (simp at h; done)
  exact ⟨by assumption, by assumption, rfl, rfl⟩

/-- On a run that returns without an initrd source the recorded size is 0. -/
theorem load_returned_no_initrd (P : Platform) (pos_ref : Nat) (m : Machine) (fk : HostFile)
    (cmd : List Char)
    (h : (load_flat_binary P pos_ref m fk none cmd).exit = Exit.returned 1) :
    (load_flat_binary P pos_ref m fk none cmd).m.vm.arch.initrd_size = 0 := by
  generalize hr : load_flat_binary P pos_ref m fk none cmd = r at h ⊢
  unfold load_flat_binary at hr
  simp only [read_image_died] at hr
  split_ifs at hr
  all_goals subst hr
  all_goals try (simp at h; done)
  rfl

/-- The blob address is a multiple of 2 MiB, at or above the address it
rounds and less than 2 MiB above it. -/
theorem ALIGN_fdt (x : Int) :
    x ≤ ALIGN x FDT_ALIGN ∧ ALIGN x FDT_ALIGN < x + SZ_2M ∧ ALIGN x FDT_ALIGN % SZ_2M = 0 := by
  unfold ALIGN FDT_ALIGN SZ_2M
  omega

/-- The initrd address is a multiple of 4, at or above the address it
rounds and less than 4 above it. -/
theorem ALIGN_initrd (x : Int) :
    x ≤ ALIGN x INITRD_ALIGN ∧ ALIGN x INITRD_ALIGN < x + 4 ∧ ALIGN x INITRD_ALIGN % 4 = 0 := by
  unfold ALIGN INITRD_ALIGN
  omega

/-- C1: on every run of `load_flat_binary` that returns, the kernel region, the blob
region and (when an initrd source is given) the initrd region are pairwise
disjoint and each lies inside the low-memory window
`[base, base + min(ram_size, 256 MiB))` of guest addresses. -/
theorem load_regions_disjoint_in_window (P : Platform) (pos_ref : Nat) (m : Machine)
    (fk : HostFile) (fi : Option HostFile) (cmd : List Char)
    (h : (load_flat_binary P pos_ref m fk fi cmd).exit = Exit.returned 1) :
    ∃ ke : Int, (load_flat_binary P pos_ref m fk fi cmd).kernel_end = some ke ∧
      (Region.mk (load_flat_binary P pos_ref m fk fi cmd).m.vm.arch.kern_guest_start ke).inside
        m.vm.arch.memory_guest_start
        (m.vm.arch.memory_guest_start + min (m.vm.ram_size : Int) SZ_256M) ∧
      (Region.mk (load_flat_binary P pos_ref m fk fi cmd).m.vm.arch.dtb_guest_start
          ((load_flat_binary P pos_ref m fk fi cmd).m.vm.arch.dtb_guest_start
            + (P.FDT_MAX_SIZE : Int))).inside
        m.vm.arch.memory_guest_start
        (m.vm.arch.memory_guest_start + min (m.vm.ram_size : Int) SZ_256M) ∧
      (Region.mk (load_flat_binary P pos_ref m fk fi cmd).m.vm.arch.kern_guest_start ke).disjoint
        (Region.mk (load_flat_binary P pos_ref m fk fi cmd).m.vm.arch.dtb_guest_start
          ((load_flat_binary P pos_ref m fk fi cmd).m.vm.arch.dtb_guest_start
            + (P.FDT_MAX_SIZE : Int))) ∧
      (fi.isSome = true →
        (Region.mk (load_flat_binary P pos_ref m fk fi cmd).m.vm.arch.initrd_guest_start
            ((load_flat_binary P pos_ref m fk fi cmd).m.vm.arch.initrd_guest_start
              + (load_flat_binary P pos_ref m fk fi cmd).m.vm.arch.initrd_size)).inside
          m.vm.arch.memory_guest_start
          (m.vm.arch.memory_guest_start + min (m.vm.ram_size : Int) SZ_256M) ∧
        (Region.mk (load_flat_binary P pos_ref m fk fi cmd).m.vm.arch.kern_guest_start
            ke).disjoint
          (Region.mk (load_flat_binary P pos_ref m fk fi cmd).m.vm.arch.initrd_guest_start
            ((load_flat_binary P pos_ref m fk fi cmd).m.vm.arch.initrd_guest_start
              + (load_flat_binary P pos_ref m fk fi cmd).m.vm.arch.initrd_size)) ∧
        (Region.mk (load_flat_binary P pos_ref m fk fi cmd).m.vm.arch.initrd_guest_start
            ((load_flat_binary P pos_ref m fk fi cmd).m.vm.arch.initrd_guest_start
              + (load_flat_binary P pos_ref m fk fi cmd).m.vm.arch.initrd_size)).disjoint
          (Region.mk (load_flat_binary P pos_ref m fk fi cmd).m.vm.arch.dtb_guest_start
            ((load_flat_binary P pos_ref m fk fi cmd).m.vm.arch.dtb_guest_start
              + (P.FDT_MAX_SIZE : Int)))) := by
  obtain ⟨hk, hd, hke, hks, hds⟩ := load_returned P pos_ref m fk fi cmd h
  obtain ⟨hk1, hk2⟩ := read_image_ok_bounds _ _ _ _ hk
  obtain ⟨ha1, ha2, -⟩ :=
    ALIGN_fdt (host_to_guest_flat m.vm (lowmem_limit m.vm - ((P.FDT_MAX_SIZE : Int) + FDT_ALIGN)))
  refine ⟨_, hke, ?_⟩
  rw [hks, hds]
  unfold Region.inside Region.disjoint
  simp only [kernel_read, dtb_addr, host_to_guest_flat, guest_flat_to_host, kernel_pos,
    lowmem_limit, FDT_ALIGN, SZ_2M, SZ_256M] at hk1 hk2 hd ha1 ha2 ⊢
  refine ⟨by omega, by omega, by omega, ?_⟩
  intro hsome
  obtain ⟨fdi, rfl⟩ := Option.isSome_iff_exists.mp hsome
  obtain ⟨hi1, hi2, his, hisz⟩ := load_returned_initrd P pos_ref m fk fdi cmd h
  obtain ⟨hr1, hr2⟩ := read_image_ok_bounds _ _ _ _ hi2
  obtain ⟨hb1, hb2, -⟩ := ALIGN_initrd (host_to_guest_flat m.vm
    (guest_flat_to_host m.vm (dtb_addr P m.vm) - (fdi.st_size + INITRD_ALIGN)))
  rw [his, hisz]
  simp only [kernel_read, initrd_read, initrd_addr, dtb_addr, host_to_guest_flat,
    guest_flat_to_host, kernel_pos, lowmem_limit, FDT_ALIGN, SZ_2M, SZ_256M]
    at hi1 hr1 hr2 hb1 hb2 ⊢
  refine ⟨by omega, by omega, by omega⟩

/-- C1 on the sample VM with 128 MiB of RAM, a 100000-byte kernel and a
70001-byte initrd. -/
theorem load_regions_disjoint_in_window_witness :
    (load_flat_binary demo_platform 7 (demo_machine 0x8000000) (demo_file [65536, 34464])
      (some (demo_file [65536, 4465])) []).exit = Exit.returned 1 ∧
    ∃ ke : Int,
      (load_flat_binary demo_platform 7 (demo_machine 0x8000000) (demo_file [65536, 34464])
        (some (demo_file [65536, 4465])) []).kernel_end = some ke ∧
      (Region.mk 0x80080000 ke).inside 0x80000000 0x88000000 ∧
      (Region.mk 0x87e00000 0x87e10000).inside 0x80000000 0x88000000 ∧
      (Region.mk 0x80080000 ke).disjoint (Region.mk 0x87e00000 0x87e10000) :=
  ⟨by decide,
    (load_regions_disjoint_in_window demo_platform 7 (demo_machine 0x8000000)
      (demo_file [65536, 34464]) (some (demo_file [65536, 4465])) [] (by decide)).imp
      (fun _ hx => ⟨hx.1, hx.2.1, hx.2.2.1, hx.2.2.2.1⟩)⟩

/-- C2: on every run that returns with an initrd source, the initrd region lies between
the kernel end and the blob start, strictly below the blob, and the blob
ends below the 256 MiB cap whatever the RAM size. -/
theorem load_initrd_between_kernel_and_blob (P : Platform) (pos_ref : Nat) (m : Machine)
    (fk fdi : HostFile) (cmd : List Char)
    (h : (load_flat_binary P pos_ref m fk (some fdi) cmd).exit = Exit.returned 1) :
    ∃ ke : Int, (load_flat_binary P pos_ref m fk (some fdi) cmd).kernel_end = some ke ∧
      ke ≤ (load_flat_binary P pos_ref m fk (some fdi) cmd).m.vm.arch.initrd_guest_start ∧
      0 ≤ (load_flat_binary P pos_ref m fk (some fdi) cmd).m.vm.arch.initrd_size ∧
      (load_flat_binary P pos_ref m fk (some fdi) cmd).m.vm.arch.initrd_guest_start
        + (load_flat_binary P pos_ref m fk (some fdi) cmd).m.vm.arch.initrd_size
        < (load_flat_binary P pos_ref m fk (some fdi) cmd).m.vm.arch.dtb_guest_start ∧
      (load_flat_binary P pos_ref m fk (some fdi) cmd).m.vm.arch.dtb_guest_start
        + (P.FDT_MAX_SIZE : Int) < m.vm.arch.memory_guest_start + SZ_256M := by
  obtain ⟨-, -, hke, -, hds⟩ := load_returned P pos_ref m fk (some fdi) cmd h
  obtain ⟨hi1, hi2, his, hisz⟩ := load_returned_initrd P pos_ref m fk fdi cmd h
  obtain ⟨hr1, hr2⟩ := read_image_ok_bounds _ _ _ _ hi2
  obtain ⟨-, ha2, -⟩ :=
    ALIGN_fdt (host_to_guest_flat m.vm (lowmem_limit m.vm - ((P.FDT_MAX_SIZE : Int) + FDT_ALIGN)))
  refine ⟨_, hke, ?_⟩
  rw [his, hisz, hds]
  simp only [kernel_read, initrd_read, initrd_addr, dtb_addr, host_to_guest_flat,
    guest_flat_to_host, kernel_pos, lowmem_limit, FDT_ALIGN, SZ_2M, SZ_256M]
    at hi1 hr1 hr2 ha2 ⊢
  refine ⟨by omega, by omega, by omega, by omega⟩

/-- C2 on the sample VM with 4 GiB of RAM, a 100000-byte kernel and a
70001-byte initrd. -/
theorem load_initrd_between_kernel_and_blob_witness :
    (load_flat_binary demo_platform 7 (demo_machine 0x100000000) (demo_file [65536, 34464])
      (some (demo_file [65536, 4465])) []).exit = Exit.returned 1 ∧
    ∃ ke : Int,
      (load_flat_binary demo_platform 7 (demo_machine 0x100000000) (demo_file [65536, 34464])
        (some (demo_file [65536, 4465])) []).kernel_end = some ke ∧
      ke ≤ 0x8fdeee8c ∧ (0 : Int) ≤ 70001 ∧ (0x8fdeee8c : Int) + 70001 < 0x8fe00000 ∧
      (0x8fe00000 : Int) + 0x10000 < 0x80000000 + SZ_256M :=
  ⟨by decide,
    load_initrd_between_kernel_and_blob demo_platform 7 (demo_machine 0x100000000)
      (demo_file [65536, 34464]) (demo_file [65536, 4465]) [] (by decide)⟩

/-- The blob start after any run is the one before it or a multiple of
2 MiB; the initrd start is the one before it or a multiple of 4. -/
theorem load_recorded_aligned (P : Platform) (pos_ref : Nat) (m : Machine) (fk : HostFile)
    (fi : Option HostFile) (cmd : List Char) :
    ((load_flat_binary P pos_ref m fk fi cmd).m.vm.arch.dtb_guest_start
        = m.vm.arch.dtb_guest_start ∨
      (load_flat_binary P pos_ref m fk fi cmd).m.vm.arch.dtb_guest_start % FDT_ALIGN = 0) ∧
    ((load_flat_binary P pos_ref m fk fi cmd).m.vm.arch.initrd_guest_start
        = m.vm.arch.initrd_guest_start ∨
      (load_flat_binary P pos_ref m fk fi cmd).m.vm.arch.initrd_guest_start % INITRD_ALIGN
        = 0) := by
  generalize hr : load_flat_binary P pos_ref m fk fi cmd = r
  unfold load_flat_binary at hr
  simp only [read_image_died, Bool.false_eq_true, if_false] at hr
  repeat' split at hr
  all_goals subst hr
  all_goals refine ⟨?_, ?_⟩
  all_goals first
    | (left; rfl)
    | (right; exact (ALIGN_fdt _).2.2)
    | (right; exact (ALIGN_initrd _).2.2)

/-- C3: whenever a run of `load_flat_binary` records them, `dtb_guest_start` is a
multiple of `FDT_ALIGN` (2 MiB) and `initrd_guest_start` a multiple of
`INITRD_ALIGN` (4): after any run each field is either untouched or so
aligned, and after a run that returns the blob start is aligned, as is the
initrd start when an initrd source is given. -/
theorem load_alignment (P : Platform) (pos_ref : Nat) (m : Machine) (fk : HostFile)
    (fi : Option HostFile) (cmd : List Char) :
    ((load_flat_binary P pos_ref m fk fi cmd).m.vm.arch.dtb_guest_start
        = m.vm.arch.dtb_guest_start ∨
      (load_flat_binary P pos_ref m fk fi cmd).m.vm.arch.dtb_guest_start % FDT_ALIGN = 0) ∧
    ((load_flat_binary P pos_ref m fk fi cmd).m.vm.arch.initrd_guest_start
        = m.vm.arch.initrd_guest_start ∨
      (load_flat_binary P pos_ref m fk fi cmd).m.vm.arch.initrd_guest_start % INITRD_ALIGN
        = 0) ∧
    ((load_flat_binary P pos_ref m fk fi cmd).exit = Exit.returned 1 →
      (load_flat_binary P pos_ref m fk fi cmd).m.vm.arch.dtb_guest_start % FDT_ALIGN = 0 ∧
      (fi.isSome = true →
        (load_flat_binary P pos_ref m fk fi cmd).m.vm.arch.initrd_guest_start % INITRD_ALIGN
          = 0)) := by
  refine ⟨(load_recorded_aligned P pos_ref m fk fi cmd).1,
    (load_recorded_aligned P pos_ref m fk fi cmd).2, ?_⟩
  intro h
  obtain ⟨-, -, -, -, hds⟩ := load_returned P pos_ref m fk fi cmd h
  refine ⟨?_, ?_⟩
  · rw [hds]
    exact (ALIGN_fdt _).2.2
  · intro hsome
    obtain ⟨fdi, rfl⟩ := Option.isSome_iff_exists.mp hsome
    obtain ⟨-, -, his, -⟩ := load_returned_initrd P pos_ref m fk fdi cmd h
    rw [his]
    exact (ALIGN_initrd _).2.2

/-- C4: when the initrd is delivered without error in chunks of 1 to 64 KiB and
`load_flat_binary` returns, the recorded `initrd_size` is exactly the number
of bytes of the file and `initrd_guest_start` is the address aligned before
the read; without an initrd source the recorded size is 0. -/
theorem load_initrd_size_exact (P : Platform) (pos_ref : Nat) (m : Machine) (fk : HostFile)
    (fi : Option HostFile) (cmd : List Char)
    (h : (load_flat_binary P pos_ref m fk fi cmd).exit = Exit.returned 1)
    (hchunks : ∀ fdi, fi = some fdi → ∀ c ∈ fdi.reads, 1 ≤ c ∧ c ≤ SZ_64K) :
    match fi with
    | some fdi =>
      (load_flat_binary P pos_ref m fk fi cmd).m.vm.arch.initrd_size = fdi.reads.sum ∧
      (load_flat_binary P pos_ref m fk fi cmd).m.vm.arch.initrd_guest_start
        = ALIGN (host_to_guest_flat m.vm
            (guest_flat_to_host m.vm
                (load_flat_binary P pos_ref m fk fi cmd).m.vm.arch.dtb_guest_start
              - (fdi.st_size + INITRD_ALIGN))) INITRD_ALIGN
    | none => (load_flat_binary P pos_ref m fk fi cmd).m.vm.arch.initrd_size = 0 := by
  cases fi with
  | none => exact load_returned_no_initrd P pos_ref m fk cmd h
  | some fdi =>
    obtain ⟨-, -, -, -, hds⟩ := load_returned P pos_ref m fk (some fdi) cmd h
    obtain ⟨-, hi2, his, hisz⟩ := load_returned_initrd P pos_ref m fk fdi cmd h
    have hpos : ∀ c ∈ fdi.reads, 0 < c := fun c hc => by
      have := (hchunks fdi rfl c hc).1
      omega
    obtain ⟨-, hr2⟩ := read_image_ok_bounds _ _ _ _ hi2
    simp only [initrd_read, read_image_pos] at hr2
    have hsum := (read_image_loop_below _ _ _ hpos hr2).1
    refine ⟨?_, ?_⟩
    · have hp : (initrd_read P pos_ref m.vm fdi).pos
          = guest_flat_to_host m.vm (initrd_addr P m.vm fdi.st_size) + fdi.reads.sum := by
        rw [initrd_read, read_image_pos]
        exact hsum
      rw [hisz, hp]
      simp only [host_to_guest_flat, guest_flat_to_host]
      omega
    · rw [his, hds]
      rfl

/-- C4 on the sample VM with 128 MiB of RAM and a 70001-byte initrd read as
65536 + 4465. -/
theorem load_initrd_size_exact_witness :
    (load_flat_binary demo_platform 7 (demo_machine 0x8000000) (demo_file [65536, 34464])
      (some (demo_file [65536, 4465])) []).exit = Exit.returned 1 ∧
    (load_flat_binary demo_platform 7 (demo_machine 0x8000000) (demo_file [65536, 34464])
      (some (demo_file [65536, 4465])) []).m.vm.arch.initrd_size = 70001 :=
  ⟨by decide,
    (load_initrd_size_exact demo_platform 7 (demo_machine 0x8000000)
      (demo_file [65536, 34464]) (some (demo_file [65536, 4465])) [] (by decide)
      (fun fdi hf c hc => by
        cases hf
        revert c
        decide)).1⟩

/-- A kernel delivered without error that does not fit strictly below the
window limit makes the kernel read return `-ENOMEM`. -/
theorem kernel_read_too_big (P : Platform) (pos_ref : Nat) (vm : kvm) (fk : HostFile)
    (hchunks : ∀ c ∈ fk.reads, 1 ≤ c ∧ c ≤ SZ_64K)
    (hbig : ¬ kernel_pos P vm + fk.reads.sum < lowmem_limit vm) :
    (read_image pos_ref fk.reads (vm.ram_start + (P.ARM_KERN_OFFSET vm : Int))
      (vm.ram_start + min (vm.ram_size : Int) SZ_256M - 1)).ret = -ENOMEM := by
  have hpos : ∀ c ∈ fk.reads, 0 < c := fun c hc => by
    have := (hchunks c hc).1
    omega
  rw [read_image_ret]
  rw [if_neg]
  intro hlt
  have := (read_image_loop_below _ _ _ hpos hlt).1
  unfold kernel_pos lowmem_limit at hbig
  omega

/-- The result of `load_flat_binary` when the kernel read returns `-ENOMEM`. -/
theorem load_kernel_enomem (P : Platform) (pos_ref : Nat) (m : Machine) (fk : HostFile)
    (fi : Option HostFile) (cmd : List Char) (hl : ¬ fk.lseek_ret < 0)
    (hret : (read_image pos_ref fk.reads (m.vm.ram_start + (P.ARM_KERN_OFFSET m.vm : Int))
      (m.vm.ram_start + min (m.vm.ram_size : Int) SZ_256M - 1)).ret = -ENOMEM) :
    load_flat_binary P pos_ref m fk fi cmd =
      { exit := Exit.died "kernel image too big to contain in guest memory.",
        m := { m with
          vm := { m.vm with arch := { m.vm.arch with
            kern_guest_start := host_to_guest_flat m.vm (kernel_pos P m.vm) } },
          stores := m.stores ++ (kernel_read P pos_ref m.vm fk).stores },
        kernel_end := none } := by
  unfold load_flat_binary
  simp only [read_image_died, Bool.false_eq_true, if_false]
  rw [if_neg hl, if_pos hret]
  rfl

/-- C6 (amended): when the kernel, delivered without error, does not fit strictly below
the window limit, `load_flat_binary` terminates fatally with `dtb_guest_start`,
`initrd_guest_start` and `initrd_size` unmodified; when the seek succeeded
the failure is "kernel image too big" and `kern_guest_start` has already been
set to the guest address of `ram_start + ARM_KERN_OFFSET`. -/
theorem load_kernel_too_big_state (P : Platform) (pos_ref : Nat) (m : Machine) (fk : HostFile)
    (fi : Option HostFile) (cmd : List Char)
    (hchunks : ∀ c ∈ fk.reads, 1 ≤ c ∧ c ≤ SZ_64K)
    (hbig : ¬ m.vm.ram_start + (P.ARM_KERN_OFFSET m.vm : Int) + fk.reads.sum
        < m.vm.ram_start + min (m.vm.ram_size : Int) SZ_256M - 1) :
    (∃ msg, (load_flat_binary P pos_ref m fk fi cmd).exit = Exit.died msg) ∧
    (load_flat_binary P pos_ref m fk fi cmd).m.vm.arch.dtb_guest_start
      = m.vm.arch.dtb_guest_start ∧
    (load_flat_binary P pos_ref m fk fi cmd).m.vm.arch.initrd_guest_start
      = m.vm.arch.initrd_guest_start ∧
    (load_flat_binary P pos_ref m fk fi cmd).m.vm.arch.initrd_size = m.vm.arch.initrd_size ∧
    (0 ≤ fk.lseek_ret →
      (load_flat_binary P pos_ref m fk fi cmd).exit
        = Exit.died "kernel image too big to contain in guest memory." ∧
      (load_flat_binary P pos_ref m fk fi cmd).m.vm.arch.kern_guest_start
        = m.vm.arch.memory_guest_start + (P.ARM_KERN_OFFSET m.vm : Int)) := by
  by_cases hl : fk.lseek_ret < 0
  · have hr : load_flat_binary P pos_ref m fk fi cmd
        = { exit := Exit.died "lseek", m := m, kernel_end := none } := by
      unfold load_flat_binary
      rw [if_pos hl]
    rw [hr]
    exact ⟨⟨_, rfl⟩, rfl, rfl, rfl, fun h0 => absurd hl (by omega)⟩
  · rw [load_kernel_enomem P pos_ref m fk fi cmd hl
      (kernel_read_too_big P pos_ref m.vm fk hchunks hbig)]
    refine ⟨⟨_, rfl⟩, rfl, rfl, rfl, fun _ => ⟨rfl, ?_⟩⟩
    simp only [host_to_guest_flat, kernel_pos]
    omega

/-- C6 (amended) on the sample VM with 1 MiB of RAM and a 2 MiB kernel. -/
theorem load_kernel_too_big_state_witness :
    (∀ c ∈ (demo_file (List.replicate 32 65536)).reads, 1 ≤ c ∧ c ≤ SZ_64K) ∧
    (load_flat_binary demo_platform 7 (demo_machine 0x100000)
      (demo_file (List.replicate 32 65536)) none []).m.vm.arch.dtb_guest_start = 0 :=
  ⟨by decide,
    (load_kernel_too_big_state demo_platform 7 (demo_machine 0x100000)
      (demo_file (List.replicate 32 65536)) none [] (by decide) (by decide)).2.1⟩

/-- C6 as stated fails: on the sample VM with 1 MiB of RAM and a 2 MiB kernel the run
ends in the fatal "kernel image too big" and `kern_guest_start`, 0 before the
call, holds `0x80080000` at that point. -/
theorem load_kernel_too_big_kern_start_modified :
    (load_flat_binary demo_platform 7 (demo_machine 0x100000)
      (demo_file (List.replicate 32 65536)) none []).exit
      = Exit.died "kernel image too big to contain in guest memory." ∧
    (demo_machine 0x100000).vm.arch.kern_guest_start = 0 ∧
    (load_flat_binary demo_platform 7 (demo_machine 0x100000)
      (demo_file (List.replicate 32 65536)) none []).m.vm.arch.kern_guest_start
      = 0x80080000 ∧
    (load_flat_binary demo_platform 7 (demo_machine 0x100000)
      (demo_file (List.replicate 32 65536)) none []).m.vm.arch.kern_guest_start
      ≠ (demo_machine 0x100000).vm.arch.kern_guest_start := by
  decide

/-- C7 (amended): when the kernel, delivered without error, is larger than the low-memory
window and the seek succeeded, `load_flat_binary` fails with "kernel image too
big" only after the read has stored image bytes: the first chunk at least has
been stored at `ram_start + ARM_KERN_OFFSET`. -/
theorem load_kernel_too_big_stores (P : Platform) (pos_ref : Nat) (m : Machine) (fk : HostFile)
    (fi : Option HostFile) (cmd : List Char)
    (hchunks : ∀ c ∈ fk.reads, 1 ≤ c ∧ c ≤ SZ_64K)
    (hl : 0 ≤ fk.lseek_ret)
    (hbig : min (m.vm.ram_size : Int) SZ_256M < fk.reads.sum) :
    (load_flat_binary P pos_ref m fk fi cmd).exit
      = Exit.died "kernel image too big to contain in guest memory." ∧
    ∃ c rest tail, fk.reads = c :: rest ∧
      (load_flat_binary P pos_ref m fk fi cmd).m.stores
        = m.stores ++ (m.vm.ram_start + (P.ARM_KERN_OFFSET m.vm : Int), c) :: tail := by
  have hnb : ¬ kernel_pos P m.vm + fk.reads.sum < lowmem_limit m.vm := by
    unfold kernel_pos lowmem_limit
    omega
  rw [load_kernel_enomem P pos_ref m fk fi cmd (by omega)
    (kernel_read_too_big P pos_ref m.vm fk hchunks hnb)]
  refine ⟨rfl, ?_⟩
  simp only [kernel_read, read_image_stores, kernel_pos, lowmem_limit]
  cases hreads : fk.reads with
  | nil =>
    rw [hreads] at hbig
    simp only [List.sum_nil, SZ_256M] at hbig
    omega
  | cons c rest =>
    have hc : 0 < c := by
      have := (hchunks c (by rw [hreads]; exact List.mem_cons_self _ _)).1
      omega
    refine ⟨c, rest, ?_⟩
    unfold read_image_loop
    rw [if_pos hc]
    split_ifs
    · exact ⟨_, rfl, rfl⟩
    · exact ⟨_, rfl, rfl⟩

/-- C7 (amended) on the sample VM with 1 MiB of RAM and a 2 MiB kernel. -/
theorem load_kernel_too_big_stores_witness :
    (∀ c ∈ (demo_file (List.replicate 32 65536)).reads, 1 ≤ c ∧ c ≤ SZ_64K) ∧
    (load_flat_binary demo_platform 7 (demo_machine 0x100000)
      (demo_file (List.replicate 32 65536)) none []).exit
      = Exit.died "kernel image too big to contain in guest memory." :=
  ⟨by decide,
    (load_kernel_too_big_stores demo_platform 7 (demo_machine 0x100000)
      (demo_file (List.replicate 32 65536)) none [] (by decide) (by decide) (by decide)).1⟩

/-- C7 as stated fails: on the sample VM with 1 MiB of RAM and a 2 MiB kernel, nine chunks
of 64 KiB have been stored from `ram_start + 0x80000` on when the fatal
"kernel image too big" is reported. -/
theorem load_kernel_too_big_after_stores :
    (load_flat_binary demo_platform 7 (demo_machine 0x100000)
      (demo_file (List.replicate 32 65536)) none []).exit
      = Exit.died "kernel image too big to contain in guest memory." ∧
    (load_flat_binary demo_platform 7 (demo_machine 0x100000)
      (demo_file (List.replicate 32 65536)) none []).m.stores.head?
      = some (0x7f0000000000 + 0x80000, 65536) ∧
    ((load_flat_binary demo_platform 7 (demo_machine 0x100000)
      (demo_file (List.replicate 32 65536)) none []).m.stores.map Prod.snd).sum
      = 9 * 65536 := by
  decide

/-- C8 fails on the code: with an initrd of 70001 bytes whose first `xread` reports an
error (-5), `load_flat_binary` returns and records an initrd of 0 bytes;
with a kernel whose second `xread` reports an error it returns as well, the
kernel cut to its first 65536 bytes. -/
theorem load_returns_after_read_error :
    (load_flat_binary demo_platform 7 (demo_machine 0x8000000) (demo_file [65536, 34464])
      (some { lseek_ret := 0, fstat_ret := 0, st_size := 70001, reads := [-5] }) []).exit
      = Exit.returned 1 ∧
    (load_flat_binary demo_platform 7 (demo_machine 0x8000000) (demo_file [65536, 34464])
      (some { lseek_ret := 0, fstat_ret := 0, st_size := 70001, reads := [-5] })
      []).m.vm.arch.initrd_size = 0 ∧
    (load_flat_binary demo_platform 7 (demo_machine 0x8000000)
      { lseek_ret := 0, fstat_ret := 0, st_size := 100000, reads := [65536, -5] }
      none []).exit = Exit.returned 1 ∧
    (load_flat_binary demo_platform 7 (demo_machine 0x8000000)
      { lseek_ret := 0, fstat_ret := 0, st_size := 100000, reads := [65536, -5] }
      none []).kernel_end = some (0x80080000 + 65536) := by
  decide

/-! ## Properties of the nesting of builder calls -/

/-- Running two sequences in a row. -/
theorem fdt_depth_append (a b : List FdtCall) (d : Nat) :
    fdt_depth d (a ++ b) = (fdt_depth d a).bind (fun e => fdt_depth e b) := by
  induction a generalizing d with
  | nil => simp [fdt_depth]
  | cons c cs ih =>
    simp only [List.cons_append, fdt_depth]
    split_ifs
    · exact ih _
    · cases d with
      | zero => rfl
      | succ e => exact ih _
    · exact ih _

/-- A run that succeeds with `d` nodes open succeeds with more nodes open,
and ends the same number of nodes higher. -/
theorem fdt_depth_shift (cs : List FdtCall) (d e k : Nat) (h : fdt_depth d cs = some e) :
    fdt_depth (d + k) cs = some (e + k) := by
  induction cs generalizing d with
  | nil =>
    simp only [fdt_depth, Option.some.injEq] at h ⊢
    omega
  | cons c cs ih =>
    simp only [fdt_depth] at h ⊢
    split_ifs at h ⊢
    · have := ih (d + 1) h
      rwa [show d + 1 + k = d + k + 1 by omega] at this
    · cases d with
      | zero => simp at h
      | succ d' =>
        simp only at h
        rw [show d' + 1 + k = (d' + k) + 1 by omega]
        exact ih d' h
    · exact ih d h

/-- A balanced sequence leaves the number of open nodes unchanged. -/
theorem Balanced.depth {cs : List FdtCall} (h : Balanced cs) (d : Nat) :
    fdt_depth d cs = some d := by
  have := fdt_depth_shift cs 0 0 d h
  simpa using this

/-- Balanced sequences compose. -/
theorem Balanced.append {a b : List FdtCall} (ha : Balanced a) (hb : Balanced b) :
    Balanced (a ++ b) := by
  unfold Balanced
  rw [fdt_depth_append, ha.depth 0]
  exact hb

/-- The calls of a list of balanced callbacks are balanced. -/
theorem Balanced.flatMap {α : Type} (l : List α) (f : α → List FdtCall)
    (h : ∀ x ∈ l, Balanced (f x)) : Balanced (l.flatMap f) := by
  induction l with
  | nil => rfl
  | cons x xs ih =>
    rw [List.flatMap_cons]
    exact Balanced.append (h x (List.mem_cons_self _ _))
      (ih (fun y hy => h y (List.mem_cons_of_mem _ hy)))

/-- In a successful run the opened and closed nodes account for the change
of depth. -/
theorem fdt_depth_count (cs : List FdtCall) (d e : Nat) (h : fdt_depth d cs = some e) :
    d + cs.countP is_begin = e + cs.countP is_end := by
  induction cs generalizing d with
  | nil =>
    simp only [fdt_depth, Option.some.injEq] at h
    simp [h]
  | cons c cs ih =>
    simp only [fdt_depth] at h
    split_ifs at h with hb he
    · have hne : is_end c = false := by cases c <;> simp_all [is_begin, is_end]
      have := ih (d + 1) h
      rw [List.countP_cons_of_pos _ _ hb, List.countP_cons_of_neg _ _ (by simp [hne])]
      omega
    · cases d with
      | zero => simp at h
      | succ d' =>
        simp only at h
        have := ih d' h
        rw [List.countP_cons_of_neg _ _ hb, List.countP_cons_of_pos _ _ he]
        omega
    · have := ih d h
      rw [List.countP_cons_of_neg _ _ hb, List.countP_cons_of_neg _ _ he]
      exact this

/-- The depths recorded over two sequences in a row. -/
theorem nest_depths_append (a b : List FdtCall) (d e : Nat) (h : fdt_depth d a = some e) :
    nest_depths d (a ++ b) = nest_depths d a ++ nest_depths e b := by
  induction a generalizing d with
  | nil =>
    simp only [fdt_depth, Option.some.injEq] at h
    simp [nest_depths, h]
  | cons c cs ih =>
    simp only [fdt_depth] at h
    simp only [List.cons_append, nest_depths, List.append_eq]
    split_ifs at h ⊢
    · rw [ih _ h, List.cons_append]
    · cases d with
      | zero => simp at h
      | succ d' =>
        simp only at h
        rw [show d' + 1 - 1 = d' by omega, ih _ h, List.cons_append]
    · exact ih _ h

/-- With `k` more nodes open than a run needs, the depth stays at `k` or
above. -/
theorem nest_depths_shift (cs : List FdtCall) (d e k : Nat) (h : fdt_depth d cs = some e) :
    ∀ x ∈ nest_depths (d + k) cs, k ≤ x := by
  induction cs generalizing d with
  | nil => simp [nest_depths]
  | cons c cs ih =>
    simp only [fdt_depth] at h
    simp only [nest_depths]
    split_ifs at h ⊢
    · intro x hx
      rcases List.mem_cons.mp hx with rfl | hx
      · omega
      · exact ih (d + 1) h x (by rwa [show d + 1 + k = d + k + 1 by omega])
    · cases d with
      | zero => simp at h
      | succ d' =>
        simp only at h
        intro x hx
        rw [show d' + 1 + k - 1 = d' + k by omega] at hx
        rcases List.mem_cons.mp hx with rfl | hx
        · omega
        · exact ih d' h x hx
    · exact ih d h

/-- The root nodes opened over two sequences in a row. -/
theorem root_opens_append (a b : List FdtCall) (d e : Nat) (h : fdt_depth d a = some e) :
    root_opens d (a ++ b) = root_opens d a ++ root_opens e b := by
  induction a generalizing d with
  | nil =>
    simp only [fdt_depth, Option.some.injEq] at h
    simp [root_opens, h]
  | cons c cs ih =>
    simp only [fdt_depth] at h
    simp only [List.cons_append, root_opens, List.append_eq]
    split_ifs at h ⊢
    · rw [ih _ h, List.append_assoc]
    · rw [ih _ h, List.append_assoc]
    · cases d with
      | zero => simp at h
      | succ d' =>
        simp only at h
        rw [show d' + 1 - 1 = d' by omega, ih _ h]
    · exact ih _ h

/-- A run made with a node open beyond those it needs opens no root node. -/
theorem root_opens_shift (cs : List FdtCall) (d e k : Nat) (h : fdt_depth d cs = some e) :
    root_opens (d + k + 1) cs = [] := by
  induction cs generalizing d with
  | nil => simp [root_opens]
  | cons c cs ih =>
    have hne : d + k + 1 ≠ 0 := by omega
    simp only [fdt_depth] at h
    simp only [root_opens, if_neg hne, List.nil_append]
    split_ifs at h ⊢
    · have := ih (d + 1) h
      rwa [show d + 1 + k + 1 = d + k + 1 + 1 by omega] at this
    · cases d with
      | zero => simp at h
      | succ d' =>
        simp only at h
        rw [show d' + 1 + k + 1 - 1 = d' + k + 1 by omega]
        exact ih d' h
    · exact ih d h

/-! ## Properties of the descriptor assembler -/

/-- The node of one vCPU is opened and closed once. -/
theorem generate_cpu_node_balanced (P : Platform) (vm : kvm) (vcpu : kvm_cpu) :
    Balanced (generate_cpu_node P vm vcpu) := by
  unfold Balanced generate_cpu_node
  split_ifs <;> rfl

/-- The subtree `/cpus` is balanced. -/
theorem generate_cpu_nodes_balanced (P : Platform) (vm : kvm) :
    Balanced (generate_cpu_nodes P vm) := by
  unfold Balanced generate_cpu_nodes
  rw [fdt_depth_append, fdt_depth_append]
  have h1 : fdt_depth 0 [FdtCall.begin_node "cpus", FdtCall.property_cell "#address-cells" 0x1,
      FdtCall.property_cell "#size-cells" 0x0] = some 1 := rfl
  rw [h1, Option.some_bind,
    (Balanced.flatMap vm.cpus _ (fun x _ => generate_cpu_node_balanced P vm x)).depth 1]
  rfl

/-- The subtree `/psci` is balanced. -/
theorem setup_fdt_psci_balanced (P : Platform) (E : Env) (vm : kvm) :
    Balanced (setup_fdt_psci P E vm) := by
  unfold Balanced setup_fdt_psci
  split_ifs <;> rfl

/-- The properties of the root with `/chosen` and `/memory` are balanced. -/
theorem setup_fdt_head_balanced (P : Platform) (E : Env) (m : Machine) :
    Balanced ((setup_fdt_head P E m).drop 3) := by
  unfold Balanced setup_fdt_head
  by_cases h : m.vm.arch.initrd_size ≠ 0
  · simp only [if_pos h]
    rfl
  · simp only [if_neg h]
    rfl

/-- With balanced callbacks, what `setup_fdt` emits inside the root node is
balanced. -/
theorem setup_fdt_body_balanced (P : Platform) (E : Env) (m : Machine)
    (cb : Option (Nat → List FdtCall))
    (hcb : ∀ f, cb = some f → Balanced (f E.gic_phandle))
    (hmmio : ∀ dev ∈ E.mmio_devs, Balanced (dev.data (generate_irq_prop P)))
    (hioport : ∀ dev ∈ E.ioport_devs, Balanced (dev.data (generate_irq_prop P)))
    (hpci : Balanced (E.pci__generate_fdt_nodes E.gic_phandle)) :
    Balanced (setup_fdt_body P E m cb) := by
  unfold setup_fdt_body
  refine Balanced.append (Balanced.append (Balanced.append (Balanced.append (Balanced.append
    (Balanced.append (setup_fdt_head_balanced P E m) (generate_cpu_nodes_balanced P m.vm)) ?_)
    (Balanced.flatMap _ _ hmmio)) (Balanced.flatMap _ _ hioport)) hpci)
    (setup_fdt_psci_balanced P E m.vm)
  cases cb with
  | none => rfl
  | some f => exact hcb f rfl

/-- With at least one vCPU `setup_fdt` produces its calls: the tree is
created, the root opened, the body emitted, the root closed and the tree
finished, relocated and packed. -/
theorem setup_fdt_calls (P : Platform) (E : Env) (m : Machine) (cpu0 : kvm_cpu)
    (rest : List kvm_cpu) (hc : m.vm.cpus = cpu0 :: rest) :
    ∃ r, setup_fdt P E m = some r ∧
      r.calls = [FdtCall.create P.FDT_MAX_SIZE, FdtCall.finish_reservemap,
          FdtCall.begin_node ""]
        ++ setup_fdt_body P E m cpu0.generate_fdt_nodes
        ++ [FdtCall.end_node, FdtCall.finish,
            FdtCall.open_into (guest_flat_to_host m.vm m.vm.arch.dtb_guest_start)
              P.FDT_MAX_SIZE,
            FdtCall.pack (guest_flat_to_host m.vm m.vm.arch.dtb_guest_start)] := by
  have hhead : setup_fdt_head P E m
      = [FdtCall.create P.FDT_MAX_SIZE, FdtCall.finish_reservemap, FdtCall.begin_node ""]
        ++ (setup_fdt_head P E m).drop 3 := by
    unfold setup_fdt_head
    rfl
  have hbody : setup_fdt_head P E m ++ generate_cpu_nodes P m.vm
        ++ (match cpu0.generate_fdt_nodes with
            | some f => f E.gic_phandle
            | none => [])
        ++ E.mmio_devs.flatMap (fun dev_hdr => dev_hdr.data (generate_irq_prop P))
        ++ E.ioport_devs.flatMap (fun dev_hdr => dev_hdr.data (generate_irq_prop P))
        ++ E.pci__generate_fdt_nodes E.gic_phandle
        ++ setup_fdt_psci P E m.vm
      = [FdtCall.create P.FDT_MAX_SIZE, FdtCall.finish_reservemap, FdtCall.begin_node ""]
        ++ setup_fdt_body P E m cpu0.generate_fdt_nodes := by
    unfold setup_fdt_body
    conv_lhs => rw [hhead]
    simp only [List.append_assoc]
  unfold setup_fdt
  simp only [hc]
  cases m.vm.cfg.dump_dtb_filename with
  | none => exact ⟨_, rfl, by rw [← hbody]⟩
  | some dtb_file => exact ⟨_, rfl, by rw [← hbody]⟩

/-- C9: with at least one vCPU and balanced node-emission callbacks, `setup_fdt` issues a
well-formed sequence of `begin_node` / `end_node` calls: as many of one as
of the other, no `end_node` without an open node, depth above zero until the
final `end_node`, exactly one root node, named "", and `fdt_finish` issued
with no node open. -/
theorem setup_fdt_nesting_wellformed (P : Platform) (E : Env) (m : Machine)
    (hcpus : m.vm.cpus ≠ [])
    (hcb : ∀ cpu0 f, m.vm.cpus.head? = some cpu0 → cpu0.generate_fdt_nodes = some f →
      Balanced (f E.gic_phandle))
    (hmmio : ∀ dev ∈ E.mmio_devs, Balanced (dev.data (generate_irq_prop P)))
    (hioport : ∀ dev ∈ E.ioport_devs, Balanced (dev.data (generate_irq_prop P)))
    (hpci : Balanced (E.pci__generate_fdt_nodes E.gic_phandle)) :
    ∃ r, setup_fdt P E m = some r ∧
      r.calls.countP is_begin = r.calls.countP is_end ∧
      fdt_depth 0 r.calls = some 0 ∧
      (∃ ds, nest_depths 0 r.calls = ds ++ [0] ∧ ∀ x ∈ ds, 0 < x) ∧
      root_opens 0 r.calls = [FdtCall.begin_node ""] ∧
      (∃ pre, r.calls = pre ++ [FdtCall.finish,
            FdtCall.open_into (guest_flat_to_host m.vm m.vm.arch.dtb_guest_start)
              P.FDT_MAX_SIZE,
            FdtCall.pack (guest_flat_to_host m.vm m.vm.arch.dtb_guest_start)] ∧
          fdt_depth 0 pre = some 0) := by
  obtain ⟨cpu0, rest, hc⟩ := List.exists_cons_of_ne_nil hcpus
  obtain ⟨r, hr, hcalls⟩ := setup_fdt_calls P E m cpu0 rest hc
  have hb : Balanced (setup_fdt_body P E m cpu0.generate_fdt_nodes) :=
    setup_fdt_body_balanced P E m _ (fun f hf => hcb cpu0 f (by rw [hc]; rfl) hf)
      hmmio hioport hpci
  have hopen : fdt_depth 0 ([FdtCall.create P.FDT_MAX_SIZE, FdtCall.finish_reservemap,
      FdtCall.begin_node ""] ++ setup_fdt_body P E m cpu0.generate_fdt_nodes) = some 1 := by
    rw [fdt_depth_append]
    exact hb.depth 1
  have hroot : fdt_depth 0 [FdtCall.create P.FDT_MAX_SIZE, FdtCall.finish_reservemap,
      FdtCall.begin_node ""] = some 1 := rfl
  refine ⟨r, hr, ?_, ?_, ?_, ?_, ?_⟩
  · have := fdt_depth_count _ 0 0 hb
    rw [hcalls]
    simp only [List.countP_append, List.countP_cons, List.countP_nil, is_begin, is_end]
    simp only [Bool.false_eq_true, if_false, if_true]
    omega
  · rw [hcalls, fdt_depth_append, hopen]
    rfl
  · refine ⟨1 :: nest_depths 1 (setup_fdt_body P E m cpu0.generate_fdt_nodes), ?_, ?_⟩
    · rw [hcalls, nest_depths_append _ _ 0 1 hopen, nest_depths_append _ _ 0 1 hroot]
      rfl
    · intro x hx
      rcases List.mem_cons.mp hx with rfl | hx
      · omega
      · have := nest_depths_shift _ 0 0 1 hb x (by simpa using hx)
        omega
  · rw [hcalls, root_opens_append _ _ 0 1 hopen, root_opens_append _ _ 0 1 hroot]
    have := root_opens_shift _ 0 0 0 hb
    simp only [Nat.zero_add] at this
    rw [this]
    rfl
  · refine ⟨[FdtCall.create P.FDT_MAX_SIZE, FdtCall.finish_reservemap, FdtCall.begin_node ""]
      ++ setup_fdt_body P E m cpu0.generate_fdt_nodes ++ [FdtCall.end_node], ?_, ?_⟩
    · rw [hcalls]
      simp only [List.append_assoc, List.cons_append, List.nil_append]
    · rw [fdt_depth_append, hopen]
      rfl

/-- C10: the last node `setup_fdt` emits inside the root is `/psci`, holding one
`compatible` property, `method = "hvc"` and the cells `cpu_suspend`,
`cpu_off`, `cpu_on`, `migrate`; with PSCI 0.2 the compatible value is the 22
bytes of "arm,psci-0.2" and "arm,psci", each with its NUL, and the cells are
those of the aarch32 table for a 32-bit guest and of the aarch64 table
otherwise; without it compatible is "arm,psci" and the cells are the
`KVM_PSCI_FN_*` numbers whatever the guest mode. -/
theorem setup_fdt_psci_node (P : Platform) (E : Env) (m : Machine)
    (hcpus : m.vm.cpus ≠ []) :
    ∃ r pre, setup_fdt P E m = some r ∧
      (char_array "arm,psci-0.2" ++ char_array "arm,psci").length = 22 ∧
      (E.psci_0_2 = true → m.vm.cfg.aarch32_guest = true →
        r.calls = pre ++
          [FdtCall.begin_node "psci",
           FdtCall.property "compatible" (char_array "arm,psci-0.2" ++ char_array "arm,psci"),
           FdtCall.property_string "method" "hvc",
           FdtCall.property_cell "cpu_suspend" P.PSCI_0_2_FN_CPU_SUSPEND,
           FdtCall.property_cell "cpu_off" P.PSCI_0_2_FN_CPU_OFF,
           FdtCall.property_cell "cpu_on" P.PSCI_0_2_FN_CPU_ON,
           FdtCall.property_cell "migrate" P.PSCI_0_2_FN_MIGRATE,
           FdtCall.end_node,
           FdtCall.end_node, FdtCall.finish,
           FdtCall.open_into (guest_flat_to_host m.vm m.vm.arch.dtb_guest_start)
             P.FDT_MAX_SIZE,
           FdtCall.pack (guest_flat_to_host m.vm m.vm.arch.dtb_guest_start)]) ∧
      (E.psci_0_2 = true → m.vm.cfg.aarch32_guest = false →
        r.calls = pre ++
          [FdtCall.begin_node "psci",
           FdtCall.property "compatible" (char_array "arm,psci-0.2" ++ char_array "arm,psci"),
           FdtCall.property_string "method" "hvc",
           FdtCall.property_cell "cpu_suspend" P.PSCI_0_2_FN64_CPU_SUSPEND,
           FdtCall.property_cell "cpu_off" P.PSCI_0_2_FN_CPU_OFF,
           FdtCall.property_cell "cpu_on" P.PSCI_0_2_FN64_CPU_ON,
           FdtCall.property_cell "migrate" P.PSCI_0_2_FN64_MIGRATE,
           FdtCall.end_node,
           FdtCall.end_node, FdtCall.finish,
           FdtCall.open_into (guest_flat_to_host m.vm m.vm.arch.dtb_guest_start)
             P.FDT_MAX_SIZE,
           FdtCall.pack (guest_flat_to_host m.vm m.vm.arch.dtb_guest_start)]) ∧
      (E.psci_0_2 = false →
        r.calls = pre ++
          [FdtCall.begin_node "psci",
           FdtCall.property_string "compatible" "arm,psci",
           FdtCall.property_string "method" "hvc",
           FdtCall.property_cell "cpu_suspend" P.KVM_PSCI_FN_CPU_SUSPEND,
           FdtCall.property_cell "cpu_off" P.KVM_PSCI_FN_CPU_OFF,
           FdtCall.property_cell "cpu_on" P.KVM_PSCI_FN_CPU_ON,
           FdtCall.property_cell "migrate" P.KVM_PSCI_FN_MIGRATE,
           FdtCall.end_node,
           FdtCall.end_node, FdtCall.finish,
           FdtCall.open_into (guest_flat_to_host m.vm m.vm.arch.dtb_guest_start)
             P.FDT_MAX_SIZE,
           FdtCall.pack (guest_flat_to_host m.vm m.vm.arch.dtb_guest_start)]) := by
  obtain ⟨cpu0, rest, hc⟩ := List.exists_cons_of_ne_nil hcpus
  obtain ⟨r, hr, hcalls⟩ := setup_fdt_calls P E m cpu0 rest hc
  have harr : char_array "arm,psci-0.2\x00arm,psci"
      = char_array "arm,psci-0.2" ++ char_array "arm,psci" := by decide
  refine ⟨r, [FdtCall.create P.FDT_MAX_SIZE, FdtCall.finish_reservemap, FdtCall.begin_node ""]
    ++ ((setup_fdt_head P E m).drop 3
      ++ generate_cpu_nodes P m.vm
      ++ (match cpu0.generate_fdt_nodes with
          | some f => f E.gic_phandle
          | none => [])
      ++ E.mmio_devs.flatMap (fun dev_hdr => dev_hdr.data (generate_irq_prop P))
      ++ E.ioport_devs.flatMap (fun dev_hdr => dev_hdr.data (generate_irq_prop P))
      ++ E.pci__generate_fdt_nodes E.gic_phandle), hr, by decide, ?_, ?_, ?_⟩
  · intro h1 h2
    rw [hcalls]
    simp only [setup_fdt_body, setup_fdt_psci, h1, h2, if_true, psci_0_2_aarch32_fns, harr,
      List.append_assoc, List.cons_append, List.nil_append]
  · intro h1 h2
    rw [hcalls]
    simp only [setup_fdt_body, setup_fdt_psci, h1, h2, if_true, psci_0_2_aarch64_fns, harr,
      Bool.false_eq_true, if_false, List.append_assoc, List.cons_append, List.nil_append]
  · intro h1
    rw [hcalls]
    simp only [setup_fdt_body, setup_fdt_psci, h1, psci_0_1_fns,
      Bool.false_eq_true, if_false, List.append_assoc, List.cons_append, List.nil_append]

/-- C9 on the sample VM: one vCPU with an interrupt-controller callback, one
device on each bus and a PCI bridge node. -/
theorem setup_fdt_nesting_wellformed_witness :
    demo_loaded.vm.cpus ≠ [] ∧
    Balanced ((demo_env true).pci__generate_fdt_nodes (demo_env true).gic_phandle) ∧
    ∃ r, setup_fdt demo_platform (demo_env true) demo_loaded = some r ∧
      r.calls.countP is_begin = r.calls.countP is_end ∧
      fdt_depth 0 r.calls = some 0 ∧
      root_opens 0 r.calls = [FdtCall.begin_node ""] :=
  ⟨List.cons_ne_nil _ _, rfl,
    (setup_fdt_nesting_wellformed demo_platform (demo_env true) demo_loaded
      (List.cons_ne_nil _ _)
      (fun cpu0 f h1 h2 => by
        cases h1
        cases h2
        rfl)
      (fun dev hd => by
        rcases List.mem_singleton.mp hd with rfl
        rfl)
      (fun dev hd => by
        rcases List.mem_singleton.mp hd with rfl
        rfl)
      rfl).imp
      (fun _ hx => ⟨hx.1, hx.2.1, hx.2.2.1, hx.2.2.2.2.1⟩)⟩

/-- C10 on the sample VM, a 64-bit guest with PSCI 0.2: `/psci` carries the
aarch64 numbers. -/
theorem setup_fdt_psci_node_witness :
    demo_loaded.vm.cpus ≠ [] ∧
    ∃ r pre, setup_fdt demo_platform (demo_env true) demo_loaded = some r ∧
      r.calls = pre ++
        [FdtCall.begin_node "psci",
         FdtCall.property "compatible" (char_array "arm,psci-0.2" ++ char_array "arm,psci"),
         FdtCall.property_string "method" "hvc",
         FdtCall.property_cell "cpu_suspend" 0xC4000001,
         FdtCall.property_cell "cpu_off" 0x84000002,
         FdtCall.property_cell "cpu_on" 0xC4000003,
         FdtCall.property_cell "migrate" 0xC4000005,
         FdtCall.end_node,
         FdtCall.end_node, FdtCall.finish,
         FdtCall.open_into 0x7f0007e00000 0x10000,
         FdtCall.pack 0x7f0007e00000] :=
  ⟨List.cons_ne_nil _ _,
    (setup_fdt_psci_node demo_platform (demo_env true) demo_loaded
      (List.cons_ne_nil _ _)).imp
      (fun _ hx => hx.imp (fun _ hy => ⟨hy.1, hy.2.2.2.1 rfl rfl⟩))⟩

/-! ## Properties of the CPU nodes -/

/-- The node of one vCPU opens exactly one node at its top level, named
after the masked affinity id. -/
theorem generate_cpu_node_root (P : Platform) (vm : kvm) (vcpu : kvm_cpu) :
    root_opens 0 (generate_cpu_node P vm vcpu)
      = [FdtCall.begin_node (cpu_name (vcpu.mpidr &&& P.ARM_MPIDR_HWID_BITMASK))] := by
  unfold generate_cpu_node
  split_ifs <;> rfl

/-- The top-level nodes of the nodes of a list of vCPUs are one node per
vCPU, in the order of the list. -/
theorem generate_cpu_node_roots (P : Platform) (vm : kvm) (l : List kvm_cpu) :
    root_opens 0 (l.flatMap (generate_cpu_node P vm))
      = l.map (fun vcpu =>
          FdtCall.begin_node (cpu_name (vcpu.mpidr &&& P.ARM_MPIDR_HWID_BITMASK))) := by
  induction l with
  | nil => rfl
  | cons x xs ih =>
    rw [List.flatMap_cons, root_opens_append _ _ 0 0 (generate_cpu_node_balanced P vm x),
      generate_cpu_node_root, ih]
    rfl

/-- C11: `generate_cpu_nodes` emits, inside `/cpus` and after the two cell-width
properties, exactly one child node per vCPU in the order of `kvm->cpus`, and
`enable-method = "psci"` is among the properties of a CPU node exactly when
there is more than one vCPU. -/
theorem generate_cpu_nodes_children (P : Platform) (vm : kvm) :
    generate_cpu_nodes P vm
      = FdtCall.begin_node "cpus"
        :: ([FdtCall.property_cell "#address-cells" 0x1, FdtCall.property_cell "#size-cells" 0x0]
            ++ vm.cpus.flatMap (generate_cpu_node P vm))
        ++ [FdtCall.end_node] ∧
    Balanced ([FdtCall.property_cell "#address-cells" 0x1,
        FdtCall.property_cell "#size-cells" 0x0]
      ++ vm.cpus.flatMap (generate_cpu_node P vm)) ∧
    root_opens 0 ([FdtCall.property_cell "#address-cells" 0x1,
        FdtCall.property_cell "#size-cells" 0x0]
      ++ vm.cpus.flatMap (generate_cpu_node P vm))
      = vm.cpus.map (fun vcpu =>
          FdtCall.begin_node (cpu_name (vcpu.mpidr &&& P.ARM_MPIDR_HWID_BITMASK))) ∧
    (root_opens 0 ([FdtCall.property_cell "#address-cells" 0x1,
        FdtCall.property_cell "#size-cells" 0x0]
      ++ vm.cpus.flatMap (generate_cpu_node P vm))).length = vm.cpus.length ∧
    (∀ vcpu : kvm_cpu,
      FdtCall.property_string "enable-method" "psci" ∈ generate_cpu_node P vm vcpu
        ↔ 1 < vm.cpus.length) := by
  have hroots : root_opens 0 ([FdtCall.property_cell "#address-cells" 0x1,
        FdtCall.property_cell "#size-cells" 0x0]
      ++ vm.cpus.flatMap (generate_cpu_node P vm))
      = vm.cpus.map (fun vcpu =>
          FdtCall.begin_node (cpu_name (vcpu.mpidr &&& P.ARM_MPIDR_HWID_BITMASK))) := by
    have hcells : fdt_depth 0 [FdtCall.property_cell "#address-cells" 0x1,
        FdtCall.property_cell "#size-cells" 0x0] = some 0 := rfl
    rw [root_opens_append _ _ 0 0 hcells, generate_cpu_node_roots]
    rfl
  refine ⟨?_, ?_, hroots, ?_, ?_⟩
  · unfold generate_cpu_nodes
    simp only [List.cons_append, List.nil_append, List.append_assoc]
  · exact Balanced.append rfl
      (Balanced.flatMap vm.cpus _ (fun x _ => generate_cpu_node_balanced P vm x))
  · rw [hroots, List.length_map]
  · intro vcpu
    unfold generate_cpu_node
    by_cases h : vm.cpus.length > 1
    · simp only [if_pos h]
      constructor
      · intro _
        exact h
      · intro _
        simp
    · simp only [if_neg h]
      constructor
      · intro hm
        simp at hm
      · intro h1
        exact absurd h1 h

/-! ## Properties of `/chosen` -/

/-- C12 fails on the code: on the laid-out sample machine (little-endian host, initrd at
`0x87deee8c`, 70001 bytes, both ends below 4 GiB) `linux,initrd-start` and
`linux,initrd-end` are emitted as four zero bytes, not as the big-endian
cells `87 de ee 8c` and `87 df ff fd` of the two addresses. -/
theorem setup_fdt_initrd_cells_zero :
    demo_platform.host_big_endian = false ∧
    demo_loaded.vm.arch.initrd_guest_start = 0x87deee8c ∧
    demo_loaded.vm.arch.initrd_size = 70001 ∧
    (setup_fdt demo_platform (demo_env true) demo_loaded).map
        (fun r => (r.calls[10]?, r.calls[11]?))
      = some (some (FdtCall.property "linux,initrd-start" [0, 0, 0, 0]),
          some (FdtCall.property "linux,initrd-end" [0, 0, 0, 0])) ∧
    bytes_be 4 0x87deee8c = [0x87, 0xde, 0xee, 0x8c] ∧
    bytes_be 4 (0x87deee8c + 70001) = [0x87, 0xdf, 0xff, 0xfd] := by
  decide

/-- A string without NUL is its own longest NUL-free beginning. -/
theorem takeWhile_ne_NUL (s : List Char) (hs : ∀ c ∈ s, c ≠ NUL) :
    s.takeWhile (fun c => c != NUL) = s := by
  rw [List.takeWhile_eq_self_iff]
  intro c hc
  simpa using hs c hc

/-- The C string left in a buffer of `n` characters by `strncpy` followed by
the store of NUL in the last position is the source cut to `n - 1`
characters. -/
theorem c_string_strncpy (s : List Char) (n : Nat) (hs : ∀ c ∈ s, c ≠ NUL) (hn : 0 < n) :
    c_string ((strncpy s n).set (n - 1) NUL) = String.mk (s.take (n - 1)) := by
  unfold c_string strncpy
  rw [takeWhile_ne_NUL s hs]
  congr 1
  have hnul : (NUL != NUL) = false := by decide
  by_cases hlen : s.length < n
  · have h1 : s.take n = s := List.take_of_length_le (by omega)
    have h2 : s.take (n - 1) = s := List.take_of_length_le (by omega)
    simp only [h1, h2]
    rw [List.set_append_right _ _ (by omega), List.set_replicate_self,
      List.takeWhile_append_of_pos (fun c hc => by simpa using hs c hc),
      List.takeWhile_replicate]
    simp [hnul]
  · have hl : (s.take n).length = n := by
      rw [List.length_take]
      omega
    simp only [hl, Nat.sub_self, List.replicate_zero, List.append_nil]
    rw [List.set_eq_take_cons_drop _ (by omega), List.take_take,
      List.drop_eq_nil_of_le (by omega)]
    rw [show min (n - 1) n = n - 1 by omega]
    rw [List.takeWhile_append_of_pos (fun c hc => by
      simpa using hs c (List.mem_of_mem_take hc))]
    simp [List.takeWhile, hnul]

/-- On a run that returns, the command-line buffer holds the copy made by
`strncpy` with NUL stored in its last position, and the vCPUs are those of
before. -/
theorem load_returned_cmdline (P : Platform) (pos_ref : Nat) (m : Machine) (fk : HostFile)
    (fi : Option HostFile) (cmd : List Char)
    (h : (load_flat_binary P pos_ref m fk fi cmd).exit = Exit.returned 1) :
    (load_flat_binary P pos_ref m fk fi cmd).m.kern_cmdline
      = (strncpy cmd P.COMMAND_LINE_SIZE).set (P.COMMAND_LINE_SIZE - 1) NUL ∧
    (load_flat_binary P pos_ref m fk fi cmd).m.vm.cpus = m.vm.cpus := by
  generalize hr : load_flat_binary P pos_ref m fk fi cmd = r at h ⊢
  unfold load_flat_binary at hr
  simp only [read_image_died, Bool.false_eq_true, if_false] at hr
  repeat' split at hr
  all_goals subst hr
  all_goals try (simp at h; done)
  all_goals exact ⟨rfl, rfl⟩

/-- The tenth call of `setup_fdt` emits `bootargs` with the C string held in
the command-line buffer. -/
theorem setup_fdt_bootargs (P : Platform) (E : Env) (m : Machine) (hcpus : m.vm.cpus ≠ []) :
    ∃ r, setup_fdt P E m = some r ∧
      r.calls[9]? = some (FdtCall.property_string "bootargs" (c_string m.kern_cmdline)) := by
  obtain ⟨cpu0, rest, hc⟩ := List.exists_cons_of_ne_nil hcpus
  obtain ⟨r, hr, hcalls⟩ := setup_fdt_calls P E m cpu0 rest hc
  refine ⟨r, hr, ?_⟩
  rw [hcalls]
  simp [setup_fdt_body, setup_fdt_head]

/-- C13: for a command line `s` (a C string) passed to a `load_flat_binary` that returns,
`setup_fdt` emits as `/chosen/bootargs` the first
`min(len(s), COMMAND_LINE_SIZE - 1)` characters of `s`: `s` itself when it is
shorter than `COMMAND_LINE_SIZE`, and otherwise `s` cut to exactly
`COMMAND_LINE_SIZE - 1` characters. -/
theorem setup_fdt_bootargs_truncated (P : Platform) (E : Env) (pos_ref : Nat) (m : Machine)
    (fk : HostFile) (fi : Option HostFile) (s : List Char)
    (hs : ∀ c ∈ s, c ≠ NUL) (hn : 0 < P.COMMAND_LINE_SIZE) (hcpus : m.vm.cpus ≠ [])
    (h : (load_flat_binary P pos_ref m fk fi s).exit = Exit.returned 1) :
    ∃ r, setup_fdt P E (load_flat_binary P pos_ref m fk fi s).m = some r ∧
      r.calls[9]? = some (FdtCall.property_string "bootargs"
        (String.mk (s.take (P.COMMAND_LINE_SIZE - 1)))) ∧
      (s.take (P.COMMAND_LINE_SIZE - 1)).length = min s.length (P.COMMAND_LINE_SIZE - 1) ∧
      (s.length < P.COMMAND_LINE_SIZE →
        r.calls[9]? = some (FdtCall.property_string "bootargs" (String.mk s))) ∧
      (P.COMMAND_LINE_SIZE ≤ s.length →
        (s.take (P.COMMAND_LINE_SIZE - 1)).length = P.COMMAND_LINE_SIZE - 1) := by
  obtain ⟨hcmd, hsame⟩ := load_returned_cmdline P pos_ref m fk fi s h
  obtain ⟨r, hr, h9⟩ := setup_fdt_bootargs P E (load_flat_binary P pos_ref m fk fi s).m
    (by rw [hsame]; exact hcpus)
  rw [hcmd, c_string_strncpy s _ hs hn] at h9
  refine ⟨r, hr, h9, ?_, ?_, ?_⟩
  · rw [List.length_take]
    omega
  · intro hlt
    rw [h9, List.take_of_length_le (by omega)]
  · intro hge
    rw [List.length_take]
    omega

/-- C13 on the sample VM with an 8-character buffer: "console=ttyAMA0" reaches the
guest as "console". -/
theorem setup_fdt_bootargs_truncated_witness :
    (∀ c ∈ "console=ttyAMA0".toList, c ≠ NUL) ∧
    (load_flat_binary { demo_platform with COMMAND_LINE_SIZE := 8 } 7 (demo_machine 0x8000000)
      (demo_file [65536, 34464]) none "console=ttyAMA0".toList).exit = Exit.returned 1 ∧
    ∃ r, setup_fdt { demo_platform with COMMAND_LINE_SIZE := 8 } (demo_env true)
        (load_flat_binary { demo_platform with COMMAND_LINE_SIZE := 8 } 7
          (demo_machine 0x8000000) (demo_file [65536, 34464]) none
          "console=ttyAMA0".toList).m = some r ∧
      r.calls[9]? = some (FdtCall.property_string "bootargs" "console") :=
  ⟨by decide, by decide,
    (setup_fdt_bootargs_truncated { demo_platform with COMMAND_LINE_SIZE := 8 } (demo_env true)
      7 (demo_machine 0x8000000) (demo_file [65536, 34464]) none "console=ttyAMA0".toList
      (by decide) (by decide) (List.cons_ne_nil _ _) (by decide)).imp
      (fun _ hx => ⟨hx.1, hx.2.1⟩)⟩

/-! ## Order of the nodes of the root -/

/-- C14: with at least one vCPU, `setup_fdt` emits inside the root, after the root's four
properties, the nodes `/chosen`, `/memory`, `/cpus`, then the output of the
CPU-architecture callback if there is one, then the output of the callback
of each memory-mapped device in registration order, then that of each
port-mapped device in registration order, then the PCI host-bridge output,
and `/psci` last; each device callback contributes exactly once. -/
theorem setup_fdt_node_order (P : Platform) (E : Env) (m : Machine) (cpu0 : kvm_cpu)
    (rest : List kvm_cpu) (hc : m.vm.cpus = cpu0 :: rest) :
    ∃ r chosen_props, setup_fdt P E m = some r ∧
      (∀ c ∈ chosen_props, is_begin c = false ∧ is_end c = false) ∧
      r.calls =
        [FdtCall.create P.FDT_MAX_SIZE, FdtCall.finish_reservemap,
         FdtCall.begin_node "",
         FdtCall.property_cell "interrupt-parent" E.gic_phandle,
         FdtCall.property_string "compatible" "linux,dummy-virt",
         FdtCall.property_cell "#address-cells" 0x2,
         FdtCall.property_cell "#size-cells" 0x2]
        ++ ([FdtCall.begin_node "chosen"] ++ chosen_props ++ [FdtCall.end_node])
        ++ [FdtCall.begin_node "memory",
            FdtCall.property_string "device_type" "memory",
            FdtCall.property "reg"
              (host_bytes P.host_big_endian 8
                  (cpu_to_fdt64 P.host_big_endian (as_u64 m.vm.arch.memory_guest_start))
                ++ host_bytes P.host_big_endian 8
                  (cpu_to_fdt64 P.host_big_endian m.vm.ram_size)),
            FdtCall.end_node]
        ++ generate_cpu_nodes P m.vm
        ++ (match cpu0.generate_fdt_nodes with
            | some f => f E.gic_phandle
            | none => [])
        ++ (E.mmio_devs.map (fun dev_hdr => dev_hdr.data (generate_irq_prop P))).flatten
        ++ (E.ioport_devs.map (fun dev_hdr => dev_hdr.data (generate_irq_prop P))).flatten
        ++ E.pci__generate_fdt_nodes E.gic_phandle
        ++ setup_fdt_psci P E m.vm
        ++ [FdtCall.end_node, FdtCall.finish,
            FdtCall.open_into (guest_flat_to_host m.vm m.vm.arch.dtb_guest_start)
              P.FDT_MAX_SIZE,
            FdtCall.pack (guest_flat_to_host m.vm m.vm.arch.dtb_guest_start)] ∧
      (generate_cpu_nodes P m.vm).head? = some (FdtCall.begin_node "cpus") ∧
      Balanced (generate_cpu_nodes P m.vm) ∧
      (setup_fdt_psci P E m.vm).head? = some (FdtCall.begin_node "psci") ∧
      Balanced (setup_fdt_psci P E m.vm) := by
  obtain ⟨r, hr, hcalls⟩ := setup_fdt_calls P E m cpu0 rest hc
  refine ⟨r, ((setup_fdt_head P E m).drop 8).take ((setup_fdt_head P E m).length - 13), hr,
    ?_, ?_, rfl, generate_cpu_nodes_balanced P m.vm, ?_, setup_fdt_psci_balanced P E m.vm⟩
  · intro c hcm
    unfold setup_fdt_head at hcm
    by_cases hi : m.vm.arch.initrd_size ≠ 0
    · simp only [if_pos hi] at hcm
      simp at hcm
      rcases hcm with rfl | rfl | rfl | rfl <;> exact ⟨rfl, rfl⟩
    · simp only [if_neg hi] at hcm
      simp at hcm
      rcases hcm with rfl | rfl <;> exact ⟨rfl, rfl⟩
  · rw [hcalls]
    unfold setup_fdt_body setup_fdt_head
    by_cases hi : m.vm.arch.initrd_size ≠ 0
    · simp only [if_pos hi]
      simp [List.flatMap]
    · simp only [if_neg hi]
      simp [List.flatMap]
  · unfold setup_fdt_psci
    rfl

/-- C14 on the laid-out sample machine with its one vCPU and the sample
collaborators. -/
theorem setup_fdt_node_order_witness :
    ∃ r, ∃ chosen_props : List FdtCall,
      setup_fdt demo_platform (demo_env true) demo_loaded = some r ∧
      (∀ c ∈ chosen_props, is_begin c = false ∧ is_end c = false) ∧
      Balanced (generate_cpu_nodes demo_platform demo_loaded.vm) :=
  (setup_fdt_node_order demo_platform (demo_env true) demo_loaded
    { mpidr := 0x80000000, cpu_compatible := "arm,cortex-a57",
      generate_fdt_nodes := some (fun phandle =>
        [FdtCall.begin_node "intc", FdtCall.property_cell "phandle" phandle,
         FdtCall.end_node]) } [] rfl).imp
    (fun _ hx => hx.imp (fun _ hy => ⟨hy.1, hy.2.1, hy.2.2.2.2.1⟩))

/-! ## Names and `reg` cells of the CPU nodes -/

/-- C15 as stated fails: the affinity id `0xabcd` formats as the 8-character string
"cpu@abcd", and the node is emitted as "cpu@abc". -/
theorem cpu_name_eight_chars_cut :
    (0xabcd &&& demo_platform.ARM_MPIDR_HWID_BITMASK) = 0xabcd ∧
    "cpu@".toList ++ Nat.toDigits 16 0xabcd = "cpu@abcd".toList ∧
    "cpu@abcd".toList.length = 8 ∧
    (generate_cpu_node demo_platform demo_loaded.vm
      { mpidr := 0xabcd, cpu_compatible := "arm,cortex-a57",
        generate_fdt_nodes := none }).head? = some (FdtCall.begin_node "cpu@abc") := by
  decide

/-- C15 (amended): the CPU node name is "cpu@" followed by the hexadecimal digits of the
masked affinity id, cut to `CPU_NAME_MAX_LEN - 1 = 7` characters: a string of
7 characters or fewer is emitted in full, a longer one as its first 7. -/
theorem cpu_name_seven_chars (P : Platform) (vm : kvm) (vcpu : kvm_cpu) :
    (generate_cpu_node P vm vcpu).head?
      = some (FdtCall.begin_node (String.mk
          (("cpu@".toList ++ Nat.toDigits 16 (vcpu.mpidr &&& P.ARM_MPIDR_HWID_BITMASK)).take
            7))) ∧
    (("cpu@".toList ++ Nat.toDigits 16 (vcpu.mpidr &&& P.ARM_MPIDR_HWID_BITMASK)).length ≤ 7 →
      (generate_cpu_node P vm vcpu).head?
        = some (FdtCall.begin_node (String.mk
            ("cpu@".toList ++ Nat.toDigits 16 (vcpu.mpidr &&& P.ARM_MPIDR_HWID_BITMASK))))) ∧
    (7 < ("cpu@".toList ++ Nat.toDigits 16 (vcpu.mpidr &&& P.ARM_MPIDR_HWID_BITMASK)).length →
      (("cpu@".toList ++ Nat.toDigits 16 (vcpu.mpidr &&& P.ARM_MPIDR_HWID_BITMASK)).take
        7).length = 7) := by
  have hhead : (generate_cpu_node P vm vcpu).head?
      = some (FdtCall.begin_node (String.mk
          (("cpu@".toList ++ Nat.toDigits 16 (vcpu.mpidr &&& P.ARM_MPIDR_HWID_BITMASK)).take
            7))) := by
    unfold generate_cpu_node
    rfl
  refine ⟨hhead, ?_, ?_⟩
  · intro hle
    rw [hhead, List.take_of_length_le hle]
  · intro hlt
    rw [List.length_take]
    omega

/-- C16 as stated fails: with the arm64 mask `0xFF00FFFFFF` the affinity id `0x100000003`
is kept whole by the mask, and the `reg` cell emitted is 3: bit 32 is lost. -/
theorem reg_cell_drops_high_bits :
    (0x100000003 &&& demo_platform.ARM_MPIDR_HWID_BITMASK) = 0x100000003 ∧
    (generate_cpu_node demo_platform demo_loaded.vm
      { mpidr := 0x100000003, cpu_compatible := "arm,cortex-a57",
        generate_fdt_nodes := none })[3]? = some (FdtCall.property_cell "reg" 3) ∧
    (3 : Nat) ≠ 0x100000003 := by
  decide

/-- C16 (amended): the CPU node ends with a `reg` cell holding the low 32 bits of the
masked affinity id, then `end_node`; the cell equals the masked id whenever
that is below `2^32`, as it is for every id when the mask is. -/
theorem reg_cell_low_bits (P : Platform) (vm : kvm) (vcpu : kvm_cpu) :
    (∃ pre, generate_cpu_node P vm vcpu
      = pre ++ [FdtCall.property_cell "reg"
          ((vcpu.mpidr &&& P.ARM_MPIDR_HWID_BITMASK) % 2 ^ 32), FdtCall.end_node]) ∧
    ((vcpu.mpidr &&& P.ARM_MPIDR_HWID_BITMASK) < 2 ^ 32 →
      (vcpu.mpidr &&& P.ARM_MPIDR_HWID_BITMASK) % 2 ^ 32
        = vcpu.mpidr &&& P.ARM_MPIDR_HWID_BITMASK) ∧
    (P.ARM_MPIDR_HWID_BITMASK < 2 ^ 32 →
      (vcpu.mpidr &&& P.ARM_MPIDR_HWID_BITMASK) % 2 ^ 32
        = vcpu.mpidr &&& P.ARM_MPIDR_HWID_BITMASK) := by
  refine ⟨⟨_, rfl⟩, fun h => Nat.mod_eq_of_lt h, fun h => Nat.mod_eq_of_lt ?_⟩
  exact lt_of_le_of_lt Nat.and_le_right h

/-! ## The interrupt property -/

/-- The four low bytes of a number, least significant first. -/
theorem bytes_le_four (x : Nat) :
    bytes_le 4 x = [x % 256, x / 256 % 256, x / 65536 % 256, x / 16777216 % 256] := by
  simp [bytes_le, List.range, List.range.loop]

/-- Four bytes put together least significant first come apart again. -/
theorem bytes_le_of_bytes_le (a b c d : Nat) (ha : a < 256) (hb : b < 256) (hc : c < 256)
    (hd : d < 256) : bytes_le 4 (of_bytes_le [a, b, c, d]) = [a, b, c, d] := by
  rw [bytes_le_four]
  simp only [of_bytes_le]
  refine List.cons_eq_cons.mpr ⟨by omega, List.cons_eq_cons.mpr ⟨by omega,
    List.cons_eq_cons.mpr ⟨by omega, List.cons_eq_cons.mpr ⟨by omega, rfl⟩⟩⟩⟩

/-- A cell converted with `cpu_to_fdt32` lies in host memory as the four
bytes of its value, most significant first, on either kind of host. -/
theorem host_bytes_cpu_to_fdt32 (be : Bool) (v : Nat) :
    host_bytes be 4 (cpu_to_fdt32 be v) = bytes_be 4 v := by
  cases be
  · simp only [host_bytes, cpu_to_fdt32, Bool.false_eq_true, if_false, bytes_be, bytes_le_four,
      List.reverse_cons, List.reverse_nil, List.nil_append, List.cons_append]
    have h := bytes_le_of_bytes_le (v / 16777216 % 256) (v / 65536 % 256) (v / 256 % 256)
      (v % 256) (Nat.mod_lt _ (by omega)) (Nat.mod_lt _ (by omega))
      (Nat.mod_lt _ (by omega)) (Nat.mod_lt _ (by omega))
    rw [bytes_le_four] at h
    exact h
  · simp only [host_bytes, cpu_to_fdt32, if_true, bytes_be, bytes_le_four]
    congr 1
    refine List.cons_eq_cons.mpr ⟨by omega, List.cons_eq_cons.mpr ⟨by omega,
      List.cons_eq_cons.mpr ⟨by omega, List.cons_eq_cons.mpr ⟨by omega, rfl⟩⟩⟩⟩

/-- C17: for an interrupt line `irq` below 256 and at or above `GIC_SPI_IRQ_BASE`,
`generate_irq_prop` emits exactly one property, named `interrupts`, of 12
bytes: the big-endian cells of `GIC_FDT_IRQ_TYPE_SPI`, of
`irq - GIC_SPI_IRQ_BASE` and of `GIC_FDT_IRQ_FLAGS_EDGE_LO_HI`, in that
order. -/
theorem generate_irq_prop_cells (P : Platform) (irq : Nat) (hirq : irq < 256)
    (hbase : P.GIC_SPI_IRQ_BASE ≤ irq) :
    generate_irq_prop P irq
      = [FdtCall.property "interrupts"
          (bytes_be 4 P.GIC_FDT_IRQ_TYPE_SPI
            ++ bytes_be 4 (irq - P.GIC_SPI_IRQ_BASE)
            ++ bytes_be 4 P.GIC_FDT_IRQ_FLAGS_EDGE_LO_HI)] ∧
    (bytes_be 4 P.GIC_FDT_IRQ_TYPE_SPI
      ++ bytes_be 4 (irq - P.GIC_SPI_IRQ_BASE)
      ++ bytes_be 4 P.GIC_FDT_IRQ_FLAGS_EDGE_LO_HI).length = 12 := by
  have hu : as_u32 (((irq % 256 : Nat) : Int) - (P.GIC_SPI_IRQ_BASE : Int))
      = irq - P.GIC_SPI_IRQ_BASE := by
    unfold as_u32
    rw [Nat.mod_eq_of_lt hirq]
    omega
  refine ⟨?_, ?_⟩
  · unfold generate_irq_prop
    simp only [host_bytes_cpu_to_fdt32, hu]
  · simp [bytes_be, bytes_le_four]

/-- C17 for line 33 with the SPI base 32 of the sample platform: the cells
0, 1, 1. -/
theorem generate_irq_prop_cells_witness :
    (33 : Nat) < 256 ∧ demo_platform.GIC_SPI_IRQ_BASE ≤ 33 ∧
    generate_irq_prop demo_platform 33
      = [FdtCall.property "interrupts" [0, 0, 0, 0, 0, 0, 0, 1, 0, 0, 0, 1]] :=
  ⟨by decide, by decide,
    (generate_irq_prop_cells demo_platform 33 (by decide) (by decide)).1⟩

/-! ## The diagnostic dump -/

/-- C18 as stated fails: on the laid-out sample machine with a dump path, the bytes
handed to `write` start at `0x7f0007e00000`, the address given to `fdt_pack`:
the relocated blob inside guest RAM, not the staging buffer. -/
theorem dump_reads_packed_blob :
    (setup_fdt demo_platform (demo_env true) demo_dump).map (fun r => r.host_ops)
      = some [HostOp.host_open "guest.dtb", HostOp.host_write 0x7f0007e00000 0x10000,
          HostOp.host_close] ∧
    (setup_fdt demo_platform (demo_env true) demo_dump).map (fun r => r.calls.getLast?)
      = some (some (FdtCall.pack 0x7f0007e00000)) ∧
    demo_dump.vm.ram_start ≤ 0x7f0007e00000 ∧
    (0x7f0007e00000 : Int) + 0x10000 ≤ demo_dump.vm.ram_start + demo_dump.vm.ram_size := by
  decide

/-- C18 (amended): with at least one vCPU, if a dump path is configured `setup_fdt` opens
it and hands to `write` exactly `FDT_MAX_SIZE` bytes starting at the blob's
destination in guest memory, the address relocated to and packed at; a
failed `open` and a negative result of `write` are fatal; without a dump
path no file operation is made. -/
theorem setup_fdt_dump (P : Platform) (E : Env) (m : Machine) (hcpus : m.vm.cpus ≠ []) :
    ∃ r, setup_fdt P E m = some r ∧
      r.calls.getLast?
        = some (FdtCall.pack (guest_flat_to_host m.vm m.vm.arch.dtb_guest_start)) ∧
      (m.vm.cfg.dump_dtb_filename = none → r.host_ops = [] ∧ r.exit = Exit.returned 0) ∧
      (∀ dtb_file, m.vm.cfg.dump_dtb_filename = some dtb_file →
        (E.open_ret < 0 →
          r.exit = Exit.died "Failed to write dtb to %s" ∧
          r.host_ops = [HostOp.host_open dtb_file]) ∧
        (0 ≤ E.open_ret → E.write_ret < 0 →
          r.exit = Exit.died "Failed to dump dtb" ∧
          r.host_ops = [HostOp.host_open dtb_file,
            HostOp.host_write (guest_flat_to_host m.vm m.vm.arch.dtb_guest_start)
              P.FDT_MAX_SIZE]) ∧
        (0 ≤ E.open_ret → 0 ≤ E.write_ret →
          r.exit = Exit.returned 0 ∧
          r.host_ops = [HostOp.host_open dtb_file,
            HostOp.host_write (guest_flat_to_host m.vm m.vm.arch.dtb_guest_start)
              P.FDT_MAX_SIZE,
            HostOp.host_close])) := by
  obtain ⟨cpu0, rest, hc⟩ := List.exists_cons_of_ne_nil hcpus
  unfold setup_fdt
  simp only [hc]
  cases hd : m.vm.cfg.dump_dtb_filename with
  | none =>
    refine ⟨_, rfl, ?_, fun _ => ⟨rfl, rfl⟩, fun f hf => (Option.some_ne_none f hf.symm).elim⟩
    simp
  | some dtb_file =>
    refine ⟨_, rfl, ?_, fun hn => (Option.some_ne_none dtb_file hn).elim, ?_⟩
    · simp
    · intro f hf
      cases hf
      unfold dump_fdt
      refine ⟨?_, ?_, ?_⟩
      · intro ho
        simp only [if_pos ho, and_self]
      · intro ho hw
        simp only [if_neg (not_lt.mpr ho), if_pos hw, and_self]
      · intro ho hw
        simp only [if_neg (not_lt.mpr ho), if_neg (not_lt.mpr hw), and_self]

/-- C18 (amended) on the laid-out sample machine with the dump path "guest.dtb". -/
theorem setup_fdt_dump_witness :
    demo_dump.vm.cpus ≠ [] ∧
    ∃ r, setup_fdt demo_platform (demo_env true) demo_dump = some r ∧
      r.calls.getLast? = some (FdtCall.pack 0x7f0007e00000) :=
  ⟨List.cons_ne_nil _ _,
    (setup_fdt_dump demo_platform (demo_env true) demo_dump (List.cons_ne_nil _ _)).imp
      (fun _ hx => ⟨hx.1, hx.2.1⟩)⟩

/-! ## Position of the blob and room for the initrd -/

/-- C19: on every run that returns, with `L` the guest address of the window limit
`ram_start + min(ram_size, 256 MiB) - 1`, `dtb_guest_start` is the greatest
multiple of 2 MiB strictly below `L - FDT_MAX_SIZE`, the gap between the end
of the blob and `L` is between 1 byte and 2 MiB, and any other returning run
with the same guest base and the same capped RAM size, whatever its kernel,
initrd and command line, records the same address. -/
theorem load_blob_position (P : Platform) (pos_ref : Nat) (m : Machine) (fk : HostFile)
    (fi : Option HostFile) (cmd : List Char)
    (h : (load_flat_binary P pos_ref m fk fi cmd).exit = Exit.returned 1) :
    (load_flat_binary P pos_ref m fk fi cmd).m.vm.arch.dtb_guest_start % SZ_2M = 0 ∧
    (load_flat_binary P pos_ref m fk fi cmd).m.vm.arch.dtb_guest_start
      < host_to_guest_flat m.vm (m.vm.ram_start + min (m.vm.ram_size : Int) SZ_256M - 1)
        - (P.FDT_MAX_SIZE : Int) ∧
    (∀ k : Int, k % SZ_2M = 0 →
      k < host_to_guest_flat m.vm (m.vm.ram_start + min (m.vm.ram_size : Int) SZ_256M - 1)
        - (P.FDT_MAX_SIZE : Int) →
      k ≤ (load_flat_binary P pos_ref m fk fi cmd).m.vm.arch.dtb_guest_start) ∧
    1 ≤ host_to_guest_flat m.vm (m.vm.ram_start + min (m.vm.ram_size : Int) SZ_256M - 1)
        - ((load_flat_binary P pos_ref m fk fi cmd).m.vm.arch.dtb_guest_start
          + (P.FDT_MAX_SIZE : Int)) ∧
    host_to_guest_flat m.vm (m.vm.ram_start + min (m.vm.ram_size : Int) SZ_256M - 1)
        - ((load_flat_binary P pos_ref m fk fi cmd).m.vm.arch.dtb_guest_start
          + (P.FDT_MAX_SIZE : Int)) ≤ SZ_2M ∧
    (∀ (pos_ref' : Nat) (m' : Machine) (fk' : HostFile) (fi' : Option HostFile)
        (cmd' : List Char),
      m'.vm.arch.memory_guest_start = m.vm.arch.memory_guest_start →
      min (m'.vm.ram_size : Int) SZ_256M = min (m.vm.ram_size : Int) SZ_256M →
      (load_flat_binary P pos_ref' m' fk' fi' cmd').exit = Exit.returned 1 →
      (load_flat_binary P pos_ref' m' fk' fi' cmd').m.vm.arch.dtb_guest_start
        = (load_flat_binary P pos_ref m fk fi cmd).m.vm.arch.dtb_guest_start) := by
  obtain ⟨-, -, -, -, hds⟩ := load_returned P pos_ref m fk fi cmd h
  obtain ⟨ha1, ha2, ha3⟩ :=
    ALIGN_fdt (host_to_guest_flat m.vm (lowmem_limit m.vm - ((P.FDT_MAX_SIZE : Int) + FDT_ALIGN)))
  rw [hds]
  refine ⟨?_, ?_, ?_, ?_, ?_, ?_⟩
  · exact ha3
  · simp only [dtb_addr, host_to_guest_flat, lowmem_limit, FDT_ALIGN, SZ_2M, SZ_256M]
      at ha1 ha2 ⊢
    omega
  · intro k hk hlt
    simp only [dtb_addr, host_to_guest_flat, lowmem_limit, FDT_ALIGN, SZ_2M, SZ_256M]
      at ha1 ha2 ha3 hk hlt ⊢
    omega
  · simp only [dtb_addr, host_to_guest_flat, lowmem_limit, FDT_ALIGN, SZ_2M, SZ_256M]
      at ha1 ha2 ⊢
    omega
  · simp only [dtb_addr, host_to_guest_flat, lowmem_limit, FDT_ALIGN, SZ_2M, SZ_256M]
      at ha1 ha2 ⊢
    omega
  · intro pos_ref' m' fk' fi' cmd' hg hw h'
    obtain ⟨-, -, -, -, hds'⟩ := load_returned P pos_ref' m' fk' fi' cmd' h'
    rw [hds']
    simp only [dtb_addr, host_to_guest_flat, lowmem_limit, hg, hw]
    congr 1
    omega

/-- C19 on the sample VM with 128 MiB of RAM: the blob goes to `0x87e00000`. -/
theorem load_blob_position_witness :
    (load_flat_binary demo_platform 7 (demo_machine 0x8000000) (demo_file [65536, 34464])
      none []).exit = Exit.returned 1 ∧
    (load_flat_binary demo_platform 7 (demo_machine 0x8000000) (demo_file [65536, 34464])
      none []).m.vm.arch.dtb_guest_start % SZ_2M = 0 ∧
    (1 : Int) ≤ 0x87ffffff - (0x87e00000 + 0x10000) :=
  ⟨by decide,
    (load_blob_position demo_platform 7 (demo_machine 0x8000000) (demo_file [65536, 34464])
      none [] (by decide)).1,
    (load_blob_position demo_platform 7 (demo_machine 0x8000000) (demo_file [65536, 34464])
      none [] (by decide)).2.2.2.1⟩

/-- A run that ends with "initrd too big" had an initrd source whose read
returned `-ENOMEM`. -/
theorem load_initrd_too_big (P : Platform) (pos_ref : Nat) (m : Machine) (fk fdi : HostFile)
    (cmd : List Char)
    (h : (load_flat_binary P pos_ref m fk (some fdi) cmd).exit
      = Exit.died "initrd too big to contain in guest memory.") :
    (initrd_read P pos_ref m.vm fdi).ret = -ENOMEM := by
  unfold initrd_read initrd_addr dtb_addr lowmem_limit
  generalize hr : load_flat_binary P pos_ref m fk (some fdi) cmd = r at h
  unfold load_flat_binary at hr
  simp only [read_image_died, Bool.false_eq_true, if_false] at hr
  repeat' split at hr
  all_goals subst hr
  all_goals try (simp at h; done)
  assumption

/-- While the initrd cursor does not wrap, as in `load_flat_binary`: when the reads
deliver, without error, exactly the `st_size` bytes reported by `fstat`, the
region from the aligned initrd start to the blob holds them with 1 to 4
bytes to spare, the bounded read returns 0, and no run ends with "initrd too
big"; a run that returns records that spare room. -/
theorem load_initrd_room (P : Platform) (pos_ref : Nat) (m : Machine)
    (fk fdi : HostFile) (cmd : List Char)
    (hchunks : ∀ c ∈ fdi.reads, 1 ≤ c ∧ c ≤ SZ_64K)
    (hsize : fdi.reads.sum = fdi.st_size) :
    (load_flat_binary P pos_ref m fk (some fdi) cmd).exit
      ≠ Exit.died "initrd too big to contain in guest memory." ∧
    (read_image pos_ref fdi.reads (guest_flat_to_host m.vm (initrd_addr P m.vm fdi.st_size))
      (guest_flat_to_host m.vm (dtb_addr P m.vm))).ret = 0 ∧
    1 ≤ dtb_addr P m.vm - (initrd_addr P m.vm fdi.st_size + fdi.st_size) ∧
    dtb_addr P m.vm - (initrd_addr P m.vm fdi.st_size + fdi.st_size) ≤ 4 ∧
    ((load_flat_binary P pos_ref m fk (some fdi) cmd).exit = Exit.returned 1 →
      1 ≤ (load_flat_binary P pos_ref m fk (some fdi) cmd).m.vm.arch.dtb_guest_start
          - ((load_flat_binary P pos_ref m fk (some fdi) cmd).m.vm.arch.initrd_guest_start
            + fdi.st_size) ∧
      (load_flat_binary P pos_ref m fk (some fdi) cmd).m.vm.arch.dtb_guest_start
          - ((load_flat_binary P pos_ref m fk (some fdi) cmd).m.vm.arch.initrd_guest_start
            + fdi.st_size) ≤ 4) := by
  have hpos : ∀ c ∈ fdi.reads, 0 < c := fun c hc => by
    have := (hchunks c hc).1
    omega
  obtain ⟨hb1, hb2, -⟩ := ALIGN_initrd (host_to_guest_flat m.vm
    (guest_flat_to_host m.vm (dtb_addr P m.vm) - (fdi.st_size + INITRD_ALIGN)))
  have hroom : 1 ≤ dtb_addr P m.vm - (initrd_addr P m.vm fdi.st_size + fdi.st_size) ∧
      dtb_addr P m.vm - (initrd_addr P m.vm fdi.st_size + fdi.st_size) ≤ 4 := by
    unfold initrd_addr
    simp only [host_to_guest_flat, guest_flat_to_host, INITRD_ALIGN] at hb1 hb2 ⊢
    constructor <;> omega
  have hret : (read_image pos_ref fdi.reads
      (guest_flat_to_host m.vm (initrd_addr P m.vm fdi.st_size))
      (guest_flat_to_host m.vm (dtb_addr P m.vm))).ret = 0 := by
    rw [read_image_ret, read_image_loop_fits _ _ _ hpos, if_pos]
    all_goals
      rw [hsize]
      simp only [guest_flat_to_host]
      omega
  refine ⟨?_, hret, hroom.1, hroom.2, ?_⟩
  · intro hdied
    have := load_initrd_too_big P pos_ref m fk fdi cmd hdied
    unfold initrd_read at this
    rw [hret] at this
    simp [ENOMEM] at this
  · intro hok
    obtain ⟨-, -, -, -, hds⟩ := load_returned P pos_ref m fk (some fdi) cmd hok
    obtain ⟨-, -, his, -⟩ := load_returned_initrd P pos_ref m fk fdi cmd hok
    rw [hds, his]
    exact hroom

/-- A value inside the address space is kept by a pointer. -/
theorem ptr_word_eq (w : Nat) (x : Int) (h0 : 0 ≤ x) (h1 : x < 2 ^ w) : ptr_word w x = x :=
  Int.emod_eq_of_lt h0 h1

/-- When the initrd fits below the host address of the blob and that address
is inside the address space, the initrd cursor does not wrap and the
machine-word planner does what `load_flat_binary` does. -/
theorem load_flat_binary_word_eq (w : Nat) (P : Platform) (pos_ref : Nat) (m : Machine)
    (fk fdi : HostFile) (cmd : List Char)
    (hsize : 0 ≤ fdi.st_size)
    (hfit : fdi.st_size + INITRD_ALIGN ≤ guest_flat_to_host m.vm (dtb_addr P m.vm))
    (hptr : guest_flat_to_host m.vm (dtb_addr P m.vm) < 2 ^ w) :
    load_flat_binary_word w P pos_ref m fk (some fdi) cmd
      = load_flat_binary P pos_ref m fk (some fdi) cmd := by
  obtain ⟨hb1, hb2, -⟩ := ALIGN_initrd (host_to_guest_flat m.vm
    (guest_flat_to_host m.vm (dtb_addr P m.vm) - (fdi.st_size + INITRD_ALIGN)))
  have h1 : ptr_word w (guest_flat_to_host m.vm (dtb_addr P m.vm)
      - (fdi.st_size + INITRD_ALIGN))
      = guest_flat_to_host m.vm (dtb_addr P m.vm) - (fdi.st_size + INITRD_ALIGN) := by
    apply ptr_word_eq
    · omega
    · simp only [INITRD_ALIGN] at hfit ⊢
      omega
  have h2 : ptr_word w (guest_flat_to_host m.vm (ALIGN (host_to_guest_flat m.vm
      (guest_flat_to_host m.vm (dtb_addr P m.vm) - (fdi.st_size + INITRD_ALIGN)))
      INITRD_ALIGN))
      = guest_flat_to_host m.vm (ALIGN (host_to_guest_flat m.vm
        (guest_flat_to_host m.vm (dtb_addr P m.vm) - (fdi.st_size + INITRD_ALIGN)))
        INITRD_ALIGN) := by
    apply ptr_word_eq
    · simp only [host_to_guest_flat, guest_flat_to_host, INITRD_ALIGN] at hb1 hfit ⊢
      omega
    · simp only [host_to_guest_flat, guest_flat_to_host, INITRD_ALIGN] at hb2 hptr ⊢
      omega
  unfold dtb_addr lowmem_limit at h1 h2
  unfold load_flat_binary_word load_flat_binary
  simp only [h1, h2]

/-- C20 as stated fails: on a 64-bit host, for the sparse initrd of `2 ^ 47` bytes whose
reads deliver exactly those bytes, the cursor `0x7f0007e00000 - (2 ^ 47 + 4)`
wraps to `0xffffff0007dffffc`, the overlap check passes and the run ends
with "initrd too big". -/
theorem load_word_initrd_too_big_sparse :
    (∀ c ∈ demo_sparse_initrd.reads, 1 ≤ c ∧ c ≤ SZ_64K) ∧
    demo_sparse_initrd.reads.sum = demo_sparse_initrd.st_size ∧
    ptr_word 64 (0x7f0007e00000 - (demo_sparse_initrd.st_size + INITRD_ALIGN))
      = 0xffffff0007dffffc ∧
    (load_flat_binary_word 64 demo_platform 7 (demo_machine 0x8000000)
      (demo_file [65536, 34464]) (some demo_sparse_initrd) []).exit
      = Exit.died "initrd too big to contain in guest memory." := by
  refine ⟨?_, ?_, by decide, by decide⟩
  · intro c hc
    have hc' : c = 65536 := List.eq_of_mem_replicate hc
    subst hc'
    decide
  · simp only [demo_sparse_initrd, List.sum_replicate, smul_eq_mul, nsmul_eq_mul]
    norm_num

/-- C20 (amended): on a host with pointers of `w` bits, when the reads of the initrd
deliver, without error, exactly the `st_size` bytes reported by `fstat`, and
`st_size + INITRD_ALIGN` does not exceed the host address of the blob (itself
inside the address space), so that the cursor does not wrap: the region from
the aligned initrd start to the blob holds the bytes with 1 to 4 bytes to
spare, no run ends with "initrd too big", and a run that returns records
that spare room and the whole size. -/
theorem load_word_initrd_never_too_big (w : Nat) (P : Platform) (pos_ref : Nat)
    (m : Machine) (fk fdi : HostFile) (cmd : List Char)
    (hchunks : ∀ c ∈ fdi.reads, 1 ≤ c ∧ c ≤ SZ_64K)
    (hsize : fdi.reads.sum = fdi.st_size)
    (hfit : fdi.st_size + INITRD_ALIGN ≤ guest_flat_to_host m.vm (dtb_addr P m.vm))
    (hptr : guest_flat_to_host m.vm (dtb_addr P m.vm) < 2 ^ w) :
    (load_flat_binary_word w P pos_ref m fk (some fdi) cmd).exit
      ≠ Exit.died "initrd too big to contain in guest memory." ∧
    1 ≤ dtb_addr P m.vm
      - (ALIGN (host_to_guest_flat m.vm (ptr_word w (guest_flat_to_host m.vm (dtb_addr P m.vm)
          - (fdi.st_size + INITRD_ALIGN)))) INITRD_ALIGN + fdi.st_size) ∧
    dtb_addr P m.vm
      - (ALIGN (host_to_guest_flat m.vm (ptr_word w (guest_flat_to_host m.vm (dtb_addr P m.vm)
          - (fdi.st_size + INITRD_ALIGN)))) INITRD_ALIGN + fdi.st_size) ≤ 4 ∧
    ((load_flat_binary_word w P pos_ref m fk (some fdi) cmd).exit = Exit.returned 1 →
      (load_flat_binary_word w P pos_ref m fk (some fdi) cmd).m.vm.arch.initrd_size
        = fdi.st_size ∧
      1 ≤ (load_flat_binary_word w P pos_ref m fk (some fdi) cmd).m.vm.arch.dtb_guest_start
          - ((load_flat_binary_word w P pos_ref m fk (some fdi)
              cmd).m.vm.arch.initrd_guest_start + fdi.st_size) ∧
      (load_flat_binary_word w P pos_ref m fk (some fdi) cmd).m.vm.arch.dtb_guest_start
          - ((load_flat_binary_word w P pos_ref m fk (some fdi)
              cmd).m.vm.arch.initrd_guest_start + fdi.st_size) ≤ 4) := by
  have hnn : 0 ≤ fdi.st_size := by
    rw [← hsize]
    exact List.sum_nonneg (fun c hc => by
      have := (hchunks c hc).1
      omega)
  have h1 : ptr_word w (guest_flat_to_host m.vm (dtb_addr P m.vm)
      - (fdi.st_size + INITRD_ALIGN))
      = guest_flat_to_host m.vm (dtb_addr P m.vm) - (fdi.st_size + INITRD_ALIGN) := by
    apply ptr_word_eq
    · omega
    · simp only [INITRD_ALIGN] at hfit ⊢
      omega
  obtain ⟨hno, -, hr1, hr2, hrec⟩ := load_initrd_room P pos_ref m fk fdi cmd hchunks hsize
  rw [load_flat_binary_word_eq w P pos_ref m fk fdi cmd hnn hfit hptr, h1]
  refine ⟨hno, hr1, hr2, ?_⟩
  intro hok
  refine ⟨?_, hrec hok⟩
  have hpos : ∀ c ∈ fdi.reads, 0 < c := fun c hc => by
    have := (hchunks c hc).1
    omega
  obtain ⟨-, hi2, -, hisz⟩ := load_returned_initrd P pos_ref m fk fdi cmd hok
  obtain ⟨-, hlt⟩ := read_image_ok_bounds _ _ _ _ hi2
  simp only [initrd_read, read_image_pos] at hlt
  have hsum := (read_image_loop_below _ _ _ hpos hlt).1
  have hp : (initrd_read P pos_ref m.vm fdi).pos
      = guest_flat_to_host m.vm (initrd_addr P m.vm fdi.st_size) + fdi.reads.sum := by
    rw [initrd_read, read_image_pos]
    exact hsum
  rw [hisz, hp, hsize]
  simp only [host_to_guest_flat, guest_flat_to_host]
  omega

/-- C20 (amended) on the sample VM with 128 MiB of RAM, 64-bit pointers and a
70001-byte initrd: 3 bytes to spare below the blob at `0x87e00000`. -/
theorem load_word_initrd_never_too_big_witness :
    (∀ c ∈ (demo_file [65536, 4465]).reads, 1 ≤ c ∧ c ≤ SZ_64K) ∧
    (demo_file [65536, 4465]).reads.sum = (demo_file [65536, 4465]).st_size ∧
    (demo_file [65536, 4465]).st_size + INITRD_ALIGN
      ≤ guest_flat_to_host (demo_machine 0x8000000).vm
          (dtb_addr demo_platform (demo_machine 0x8000000).vm) ∧
    (load_flat_binary_word 64 demo_platform 7 (demo_machine 0x8000000)
      (demo_file [65536, 34464]) (some (demo_file [65536, 4465])) []).exit
      ≠ Exit.died "initrd too big to contain in guest memory." ∧
    (0x87e00000 : Int) - (0x87deee8c + 70001) = 3 :=
  ⟨by decide, by decide, by decide,
    (load_word_initrd_never_too_big 64 demo_platform 7 (demo_machine 0x8000000)
      (demo_file [65536, 34464]) (demo_file [65536, 4465]) [] (by decide) (by decide)
      (by decide) (by decide)).1,
    by decide⟩

end KvmFdt
